import Mathlib

/-!
The PulseAudio adapter of polybar (`src/adapters/pulseaudio.cpp`) and the frame counter of
its animations (`src/drawtypes/animation.cpp`).

A shallow embedding of the adapter class `pulseaudio`, of the class `drawtypes::animation`,
and of the properties their specification states about them.

Modelling choices.

* The object's member variables are the fields of the structure `pulseaudio`; a member
  function is a Lean function from the object before the call to the outcome of the call
  together with the object after it, so that what an exception leaves behind is visible.
* The audio server is a read-only `Server`: for every request it says whether the operation
  object could be created and which completion callbacks it delivers. Its answers may change
  over time; the field `clock` of the object counts the interactions and indexes the answers.
* `wait_loop` returns once the completion callbacks of the pending operation have run; the
  only callbacks that run while the consumer waits are those of the pending operation.
  Notifications (`subscribe_callback`, `context_state_callback`) are separate functions.
* `trace` records every request handed to the client library, in order.
* `float` arithmetic is exact rational arithmetic; `pa_volume_t` is a natural number and the
  one sum the code forms in it is reduced modulo `2 ^ 32`.
* The `pa_cvolume_*` functions and the `PA_VOLUME_*` constants belong to libpulse; they are
  written down as libpulse defines them. `math_util::percentage_to_value` belongs to
  `utils/math.hpp`, which is not among the sources, and follows section 4.4 of the
  specification.
* The loop of `process_events` is bounded by a fuel argument; the theorems say how much fuel
  is enough.
* Logging is not modelled. The member functions are modelled without the mainloop lock; the
  lock calls of the reconnect path (`mainloop_locker`, `case_RECONNECT`) are modelled beside
  them, as the list of calls made on the mainloop.
* The `size_t` members of an animation are natural numbers reduced modulo `2 ^ 64`; an
  operation the language leaves undefined (a remainder by zero, an index past the last frame)
  has no value.
-/

namespace polybar

/-! ## libpulse: volumes -/

/-- Silence, `PA_VOLUME_MUTED`. -/
def PA_VOLUME_MUTED : Nat := 0

/-- The 100% reference volume, `PA_VOLUME_NORM` (0x10000). -/
def PA_VOLUME_NORM : Nat := 65536

/-- The largest valid volume, `PA_VOLUME_MAX` (`UINT32_MAX / 2`). -/
def PA_VOLUME_MAX : Nat := 2147483647

/-- The invalid volume marker `PA_VOLUME_INVALID` (`UINT32_MAX`). -/
def PA_VOLUME_INVALID : Nat := 4294967295

/-- The UI ceiling `PA_VOLUME_UI_MAX`, which libpulse computes as
`pa_sw_volume_from_dB(+11.0)`; the value is the one libpulse returns. -/
def PA_VOLUME_UI_MAX : Nat := 99957

/-- The largest channel count of a `pa_cvolume`, `PA_CHANNELS_MAX`. -/
def PA_CHANNELS_MAX : Nat := 32

/-- A `pa_cvolume`: one raw volume per channel. -/
structure pa_cvolume where
  values : List Nat
deriving DecidableEq, Repr

/-- The libpulse macro `PA_CLAMP_VOLUME`. -/
def PA_CLAMP_VOLUME (v : Nat) : Nat :=
  if v < PA_VOLUME_MUTED then PA_VOLUME_MUTED else if v > PA_VOLUME_MAX then PA_VOLUME_MAX else v

/-- The libpulse predicate `pa_cvolume_valid`: between 1 and 32 channels, each holding a valid
volume. -/
def pa_cvolume_valid (v : pa_cvolume) : Bool :=
  decide (0 < v.values.length) && decide (v.values.length ≤ PA_CHANNELS_MAX) &&
    v.values.all (fun x => decide (x ≤ PA_VOLUME_MAX))

/-- The libpulse function `pa_cvolume_max`: the loudest channel, and silence for an invalid
volume. -/
def pa_cvolume_max (v : pa_cvolume) : Nat :=
  if pa_cvolume_valid v then v.values.foldl (fun m x => if x > m then x else m) PA_VOLUME_MUTED
  else PA_VOLUME_MUTED

/-- The libpulse function `pa_cvolume_set` on the channels of `v`: every channel gets the clamped
volume. -/
def pa_cvolume_set (v : pa_cvolume) (x : Nat) : pa_cvolume :=
  ⟨v.values.map (fun _ => PA_CLAMP_VOLUME x)⟩

/-- The libpulse function `pa_cvolume_scale`: rescale so that the loudest channel becomes `max`,
keeping the proportions; an invalid argument leaves the volume untouched. -/
def pa_cvolume_scale (v : pa_cvolume) (max : Nat) : pa_cvolume :=
  if !pa_cvolume_valid v || max == PA_VOLUME_INVALID then v
  else
    let t := pa_cvolume_max v
    if t ≤ PA_VOLUME_MUTED then pa_cvolume_set v max
    else ⟨v.values.map (fun x => PA_CLAMP_VOLUME (x * max / t))⟩

/-- The libpulse function `pa_cvolume_inc_clamp`. -/
def pa_cvolume_inc_clamp (v : pa_cvolume) (inc limit : Nat) : pa_cvolume :=
  if !pa_cvolume_valid v || decide (inc > PA_VOLUME_MAX) then v
  else
    let m := pa_cvolume_max v
    pa_cvolume_scale v (if m ≥ limit - inc then limit else m + inc)

/-- The libpulse function `pa_cvolume_inc`. -/
def pa_cvolume_inc (v : pa_cvolume) (inc : Nat) : pa_cvolume :=
  pa_cvolume_inc_clamp v inc PA_VOLUME_MAX

/-- The libpulse function `pa_cvolume_dec`. -/
def pa_cvolume_dec (v : pa_cvolume) (dec : Nat) : pa_cvolume :=
  if !pa_cvolume_valid v || decide (dec > PA_VOLUME_MAX) then v
  else
    let m := pa_cvolume_max v
    pa_cvolume_scale v (if m ≤ PA_VOLUME_MUTED + dec then PA_VOLUME_MUTED else m - dec)

/-! ## `utils/math.hpp` -/

/-- Modelled from the spec: `math_util::percentage_to_value(percentage, min, max)` of
`utils/math.hpp`, which is not among the sources. Section 4.4:
`raw = clamp(round(percentage/100 * (max-min)), min, max)`, the percentage being a
floating-point number. -/
def percentage_to_value (percentage : ℚ) (min_value max_value : Nat) : Nat :=
  (max (min_value : ℤ)
    (min (round (percentage / 100 * ((max_value : ℚ) - (min_value : ℚ)))) (max_value : ℤ))).toNat

/-- Modelled from the spec: the two-argument `math_util::percentage_to_value(percentage, max)`
of `utils/math.hpp`, the raw equivalent of a percentage of `max`: the range starts at 0. -/
def percentage_to_value_of_max (percentage : ℚ) (max_value : Nat) : Nat :=
  percentage_to_value percentage 0 max_value

/-- The conversion `static_cast<int>(raw * 100.0f / PA_VOLUME_NORM + 0.5f)` of `get_volume`:
the cast truncates towards zero. -/
def raw_to_percentage (raw : Nat) : ℤ :=
  let x : ℚ := (raw : ℚ) * 100 / (PA_VOLUME_NORM : ℚ) + 1 / 2
  if 0 ≤ x then ⌊x⌋ else ⌈x⌉

/-! ## The adapter object -/

/-- The tags of the event queue, `pulseaudio::evtype`. -/
inductive evtype where
  | NEW
  | CHANGE
  | REMOVE
  | SERVER
  | RECONNECT
  | NOP
deriving DecidableEq, Repr

/-- The libpulse enumeration `pa_context_state_t`. -/
inductive pa_context_state_t where
  | PA_CONTEXT_UNCONNECTED
  | PA_CONTEXT_CONNECTING
  | PA_CONTEXT_AUTHORIZING
  | PA_CONTEXT_SETTING_NAME
  | PA_CONTEXT_READY
  | PA_CONTEXT_FAILED
  | PA_CONTEXT_TERMINATED
deriving DecidableEq, Repr

/-- The fields of the libpulse record `pa_sink_info` that the adapter reads. -/
structure pa_sink_info where
  index : Nat
  name : String
  volume : pa_cvolume
  mute : Bool
deriving DecidableEq, Repr

/-- One invocation of a sink-info callback: the `info` pointer (`none` when null) and `eol`. -/
structure info_call where
  info : Option pa_sink_info
  eol : Int
deriving DecidableEq, Repr

/-- A request handed to the client library. -/
inductive request where
  | get_sink_info_by_name (name : String)
  | get_sink_info_by_index (idx : Nat)
  | subscribe
  | set_sink_volume_by_index (idx : Nat) (volume : pa_cvolume)
  | set_sink_mute_by_index (idx : Nat) (mute : Bool)
deriving DecidableEq, Repr

/-- The audio server and client library as seen by the adapter. The first argument of every
field is the time of the interaction. A request answers `none` when the operation object
could not be created (the library returned a null `pa_operation`), and otherwise the
invocations of the completion callback, in order. -/
structure Server where
  pa_threaded_mainloop_new : Nat → Bool
  pa_context_new : Nat → Bool
  pa_context_connect : Nat → Int
  pa_threaded_mainloop_start : Nat → Int
  pa_context_get_state : Nat → pa_context_state_t
  pa_context_get_sink_info_by_name : Nat → String → Option (List info_call)
  pa_context_get_sink_info_by_index : Nat → Nat → Option (List info_call)
  pa_context_subscribe : Nat → Option (List Int)
  pa_context_set_sink_volume_by_index : Nat → Nat → pa_cvolume → Option (List Int)
  pa_context_set_sink_mute_by_index : Nat → Nat → Bool → Option (List Int)

/-- The member variables of `class pulseaudio`, with the interaction counter `clock` and the
request log `trace`. `m_mainloop` and `m_context` say whether the handle is non-null. -/
structure pulseaudio where
  m_state_callback_signal : Bool
  success : Int
  cv : pa_cvolume
  muted : Bool
  m_disconnected : Bool
  m_mainloop : Bool
  m_context : Bool
  m_events : List evtype
  spec_s_name : String
  s_name : String
  m_index : Nat
  m_max_volume : Nat
  clock : Nat
  trace : List request
deriving DecidableEq, Repr

deriving instance DecidableEq for Except

/-- The outcome of a member function: the value returned or the `pulseaudio_error` thrown,
and the object afterwards. -/
abbrev outcome (α : Type) : Type := Except String α × pulseaudio

/-- The constant `pulseaudio::DEFAULT_SINK`. -/
def DEFAULT_SINK : String := "@DEFAULT_SINK@"

/-! ### Callbacks -/

/-- The callback `pulseaudio::get_sink_volume_callback`. -/
def get_sink_volume_callback (This : pulseaudio) (c : info_call) : pulseaudio :=
  match c.info with
  | some info => { This with cv := info.volume, muted := info.mute }
  | none => This

/-- The callback `pulseaudio::simple_callback`. -/
def simple_callback (This : pulseaudio) (success : Int) : pulseaudio :=
  { This with success := success }

/-- The callback `pulseaudio::sink_info_callback`. -/
def sink_info_callback (This : pulseaudio) (c : info_call) : pulseaudio :=
  match c.info with
  | some info =>
    if c.eol = 0 then { This with m_index := info.index, s_name := info.name } else This
  | none => This

/-- The callback `pulseaudio::context_state_callback`, given the state of the context. -/
def context_state_callback (This : pulseaudio) (state : pa_context_state_t) : pulseaudio :=
  match state with
  | .PA_CONTEXT_READY => { This with m_state_callback_signal := true }
  | .PA_CONTEXT_TERMINATED => { This with m_state_callback_signal := true }
  | .PA_CONTEXT_FAILED =>
    { This with m_state_callback_signal := true, m_events := This.m_events ++ [evtype.RECONNECT] }
  | .PA_CONTEXT_UNCONNECTED => This
  | .PA_CONTEXT_CONNECTING => This
  | .PA_CONTEXT_AUTHORIZING => This
  | .PA_CONTEXT_SETTING_NAME => This

/-- The callback `pulseaudio::subscribe_callback`; `t` is the subscription event word, whose
low four bits are the facility (0 sink, 7 server) and whose bits 4 and 5 the type (0x00 new,
0x10 change, 0x20 remove). -/
def subscribe_callback (This : pulseaudio) (t idx : Nat) : pulseaudio :=
  if t &&& 0x0F = 7 then
    if t &&& 0x30 = 0x10 then { This with m_events := This.m_events ++ [evtype.SERVER] } else This
  else if t &&& 0x0F = 0 then
    if t &&& 0x30 = 0x00 then { This with m_events := This.m_events ++ [evtype.NEW] }
    else if t &&& 0x30 = 0x10 then
      if idx = This.m_index then { This with m_events := This.m_events ++ [evtype.CHANGE] }
      else This
    else if t &&& 0x30 = 0x20 then
      if idx = This.m_index then { This with m_events := This.m_events ++ [evtype.REMOVE] }
      else This
    else This
  else This

/-- The function `pulseaudio::wait_loop` for an operation whose completion callback is `cb`
and is invoked with `calls`: it returns once they have run. -/
def wait_loop {α : Type} (cb : pulseaudio → α → pulseaudio) (calls : List α)
    (s : pulseaudio) : pulseaudio :=
  calls.foldl cb s

/-- Hand `r` to the client library: it is logged and time advances. -/
def submit (r : request) (s : pulseaudio) : pulseaudio :=
  { s with clock := s.clock + 1, trace := s.trace ++ [r] }

/-- The resolution round-trip that `connect` and `process_events` both write out:
`pa_context_get_sink_info_by_name(..., name, sink_info_callback, this)`, `throw_error` when
the operation is null, `wait_loop` otherwise. -/
def get_sink_info_by_name (srv : Server) (name : String) (s : pulseaudio) : outcome Unit :=
  match srv.pa_context_get_sink_info_by_name s.clock name with
  | none =>
    (.error "pa_context_get_sink_info_by_name failed",
      submit (request.get_sink_info_by_name name) s)
  | some calls =>
    (.ok (), wait_loop sink_info_callback calls (submit (request.get_sink_info_by_name name) s))

/-- The member function `pulseaudio::update_volume`. -/
def update_volume (srv : Server) (s : pulseaudio) : outcome Unit :=
  match srv.pa_context_get_sink_info_by_index s.clock s.m_index with
  | none =>
    (.error "pa_context_get_sink_info_by_index failed",
      submit (request.get_sink_info_by_index s.m_index) s)
  | some calls =>
    (.ok (), wait_loop get_sink_volume_callback calls
      (submit (request.get_sink_info_by_index s.m_index) s))

/-! ### Connecting -/

/-- Lines 77 to 90 of `pulseaudio::connect`: subscribe to sink and server notifications and
seed the queue with one `NOP`. -/
def connect_subscribe (srv : Server) (s : pulseaudio) : outcome Unit :=
  match srv.pa_context_subscribe s.clock with
  | none => (.error "pa_context_subscribe failed", submit request.subscribe s)
  | some calls =>
    let s1 := wait_loop simple_callback calls (submit request.subscribe s)
    if s1.success = 0 then (.error "Failed to subscribe to sink.", s1)
    else (.ok (), { s1 with m_events := s1.m_events ++ [evtype.NOP] })

/-- Lines 57 to 75 of `pulseaudio::connect`: look the configured sink up when one is
configured, then the default sink when no sink name is known; then subscribe. -/
def connect_sinks (srv : Server) (s : pulseaudio) : outcome Unit :=
  match (if s.spec_s_name ≠ "" then get_sink_info_by_name srv s.spec_s_name s
         else (.ok (), s)) with
  | (.error e, s1) => (.error e, s1)
  | (.ok _, s1) =>
    match (if s1.s_name = "" then get_sink_info_by_name srv DEFAULT_SINK s1
           else (.ok (), s1)) with
    | (.error e, s2) => (.error e, s2)
    | (.ok _, s2) => connect_subscribe srv s2

/-- The member function `pulseaudio::connect`. The state callback runs with the state the
context reaches, and the wait for it returns. -/
def connect (srv : Server) (s0 : pulseaudio) : outcome Unit :=
  let t := s0.clock
  let s1 := { s0 with m_events := [], clock := t + 1,
                      m_mainloop := srv.pa_threaded_mainloop_new t }
  if srv.pa_threaded_mainloop_new t = false then
    (.error "Could not create pulseaudio threaded mainloop.", s1)
  else if srv.pa_context_new t = false then
    (.error "Could not create pulseaudio context.", s1)
  else
    let s2 := { s1 with m_context := true, m_state_callback_signal := false }
    if srv.pa_context_connect t < 0 then
      (.error "Could not connect pulseaudio context.", s2)
    else if srv.pa_threaded_mainloop_start t < 0 then
      (.error "Could not start pulseaudio mainloop.", s2)
    else
      let s3 := context_state_callback s2 (srv.pa_context_get_state t)
      if srv.pa_context_get_state t ≠ pa_context_state_t.PA_CONTEXT_READY then
        (.error "Could not connect to pulseaudio server.", s3)
      else connect_sinks srv s3

/-- The object as its member initialisers and the constructor's initialiser list leave it,
before the constructor's body runs. The member `cv` has no initialiser: `cv` stands for
whatever it holds. -/
def initial (sink_name : String) (cv : pa_cvolume) : pulseaudio where
  m_state_callback_signal := false
  success := 0
  cv := cv
  muted := false
  m_disconnected := true
  m_mainloop := false
  m_context := false
  m_events := []
  spec_s_name := sink_name
  s_name := ""
  m_index := 0
  m_max_volume := PA_VOLUME_UI_MAX
  clock := 0
  trace := []

/-- The constructor `pulseaudio::pulseaudio(logger, sink_name, max_volume)`. -/
def construct (srv : Server) (sink_name : String) (max_volume : Bool)
    (cv : pa_cvolume) : outcome Unit :=
  connect srv { initial sink_name cv with
    m_max_volume := if max_volume then PA_VOLUME_UI_MAX else PA_VOLUME_NORM }

/-! ### Events -/

/-- The member function `pulseaudio::get_name`. -/
def get_name (s : pulseaudio) : String := s.s_name

/-- The member function `pulseaudio::wait`. -/
def wait (s : pulseaudio) : Bool := !s.m_events.isEmpty

/-- The label `case evtype::REMOVE` of the switch in `process_events`. -/
def case_REMOVE (srv : Server) (s : pulseaudio) : outcome Unit :=
  get_sink_info_by_name srv DEFAULT_SINK s

/-- The label `case evtype::SERVER`, which falls through to `REMOVE` when no sink name is
configured. -/
def case_SERVER (srv : Server) (s : pulseaudio) : outcome Unit :=
  if s.spec_s_name ≠ "" then (.ok (), s) else case_REMOVE srv s

/-- The label `case evtype::NEW`, which falls through to `SERVER` when no sink name is
configured. -/
def case_NEW (srv : Server) (s : pulseaudio) : outcome Unit :=
  if s.spec_s_name ≠ "" then get_sink_info_by_name srv s.spec_s_name s else case_SERVER srv s

/-- The `switch (ev)` of `process_events`. -/
def dispatch (srv : Server) (ev : evtype) (s : pulseaudio) : outcome Unit :=
  match ev with
  | .NEW => case_NEW srv s
  | .SERVER => case_SERVER srv s
  | .REMOVE => case_REMOVE srv s
  | .RECONNECT => connect srv s
  | .NOP => (.ok (), s)
  | .CHANGE => (.ok (), s)

/-- The body of the loop of `process_events` once `ev` has been popped: the switch, then
`update_volume` inside `try`/`catch`, whose exception is logged and dropped. -/
def process_event (srv : Server) (ev : evtype) (s : pulseaudio) : outcome Unit :=
  match dispatch srv ev s with
  | (.error e, s1) => (.error e, s1)
  | (.ok _, s1) => (.ok (), (update_volume srv s1).2)

/-- The loop `while (!m_events.empty())` of `process_events`, run for at most `fuel`
iterations: `none` when the queue is not empty by then. -/
def process_loop (srv : Server) : Nat → pulseaudio → Option (outcome Unit)
  | 0, s => if s.m_events = [] then some (.ok (), s) else none
  | fuel + 1, s =>
    match s.m_events with
    | [] => some (.ok (), s)
    | ev :: rest =>
      match process_event srv ev { s with m_events := rest } with
      | (.error e, s1) => some (.error e, s1)
      | (.ok _, s1) => process_loop srv fuel s1

/-- The member function `pulseaudio::process_events`, its loop bounded by `fuel`. The result
`ret` is the queue length read on entry (an `int`; queue lengths stay far below `2 ^ 31`). -/
def process_events (srv : Server) (fuel : Nat) (s : pulseaudio) : Option (outcome Int) :=
  let ret : Int := s.m_events.length
  match process_loop srv fuel s with
  | none => none
  | some (.error e, s1) => some (.error e, s1)
  | some (.ok _, s1) => some (.ok ret, s1)

/-! ### Volume and mute -/

/-- The member function `pulseaudio::get_volume`. -/
def get_volume (s : pulseaudio) : Int := raw_to_percentage (pa_cvolume_max s.cv)

/-- The member function `pulseaudio::is_muted`. -/
def is_muted (s : pulseaudio) : Bool := s.muted

/-- The tail shared by `set_volume` and `inc_volume`: submit the cached volume with
`pa_context_set_sink_volume_by_index`, wait, and throw unless the server reports success. -/
def send_volume (srv : Server) (s : pulseaudio) : outcome Unit :=
  match srv.pa_context_set_sink_volume_by_index s.clock s.m_index s.cv with
  | none =>
    (.error "pa_context_set_sink_volume_by_index failed",
      submit (request.set_sink_volume_by_index s.m_index s.cv) s)
  | some calls =>
    let s1 := wait_loop simple_callback calls
      (submit (request.set_sink_volume_by_index s.m_index s.cv) s)
    if s1.success = 0 then (.error "Failed to set sink volume.", s1) else (.ok (), s1)

/-- The member function `pulseaudio::set_volume`. -/
def set_volume (srv : Server) (percentage : ℚ) (s : pulseaudio) : outcome Unit :=
  let vol := percentage_to_value percentage PA_VOLUME_MUTED PA_VOLUME_NORM
  send_volume srv { s with cv := pa_cvolume_scale s.cv vol }

/-- The volume `inc_volume` leaves in `cv` before submitting it. -/
def inc_volume_cv (delta_perc : Int) (s : pulseaudio) : pa_cvolume :=
  let vol := percentage_to_value_of_max (delta_perc.natAbs : ℚ) PA_VOLUME_NORM
  if delta_perc > 0 then
    let current := pa_cvolume_max s.cv
    if (current + vol) % 2 ^ 32 ≤ s.m_max_volume then pa_cvolume_inc s.cv vol
    else if current < s.m_max_volume then pa_cvolume_scale s.cv s.m_max_volume
    else s.cv
  else pa_cvolume_dec s.cv vol

/-- The member function `pulseaudio::inc_volume`. -/
def inc_volume (srv : Server) (delta_perc : Int) (s : pulseaudio) : outcome Unit :=
  send_volume srv { s with cv := inc_volume_cv delta_perc s }

/-- The member function `pulseaudio::set_mute`. -/
def set_mute (srv : Server) (mode : Bool) (s : pulseaudio) : outcome Unit :=
  match srv.pa_context_set_sink_mute_by_index s.clock s.m_index mode with
  | none =>
    (.error "pa_context_set_sink_mute_by_index failed",
      submit (request.set_sink_mute_by_index s.m_index mode) s)
  | some calls =>
    let s1 := wait_loop simple_callback calls
      (submit (request.set_sink_mute_by_index s.m_index mode) s)
    if s1.success = 0 then (.error "Failed to mute sink.", s1) else (.ok (), s1)

/-- The member function `pulseaudio::toggle_mute`. -/
def toggle_mute (srv : Server) (s : pulseaudio) : outcome Unit :=
  set_mute srv (!is_muted s) s


/-! ### The mainloop lock -/

/-- The calls on the threaded mainloop that create it and that take and release its lock. -/
inductive mainloop_call where
  | pa_threaded_mainloop_new
  | pa_threaded_mainloop_lock
  | pa_threaded_mainloop_unlock
deriving DecidableEq, Repr

/-- The class `pulseaudio::mainloop_locker`; `m_loop` says whether the pointer it keeps is
non-null. -/
structure mainloop_locker where
  m_loop : Bool
deriving DecidableEq, Repr

/-- The constructor `mainloop_locker::mainloop_locker(loop)`: keep the pointer and lock the
mainloop. The result is the locker and the calls made. -/
def mainloop_locker.create (loop : Bool) : mainloop_locker × List mainloop_call :=
  (⟨loop⟩, [mainloop_call.pa_threaded_mainloop_lock])

/-- The member function `mainloop_locker::unlock`: unlock and forget the pointer, when there
is one. -/
def mainloop_locker.unlock (g : mainloop_locker) : mainloop_locker × List mainloop_call :=
  if g.m_loop = true then (⟨false⟩, [mainloop_call.pa_threaded_mainloop_unlock]) else (g, [])

/-- The destructor of `mainloop_locker`, which calls `unlock`. -/
def mainloop_locker.destroy (g : mainloop_locker) : List mainloop_call := g.unlock.2

/-- The calls `connect` makes on the mainloop: line 20 creates it, and once it exists the
guard of line 24 locks it until `connect` is left, by return or by exception. -/
def connect_mainloop_calls (srv : Server) (s : pulseaudio) : List mainloop_call :=
  if srv.pa_threaded_mainloop_new s.clock = false then
    [mainloop_call.pa_threaded_mainloop_new]
  else
    [mainloop_call.pa_threaded_mainloop_new] ++ (mainloop_locker.create true).2 ++
      (mainloop_locker.create true).1.destroy

/-- The label `case evtype::RECONNECT` of the switch in `process_events`, lines 150 to 157,
with the guard of `process_events`: `guard.unlock()`, `connect()`, and
`guard = mainloop_locker{m_mainloop}`, an assignment from a temporary that is destroyed at the
end of the statement. The result is the outcome of `connect`, the guard afterwards and the
calls made on the mainloop, in order. -/
def case_RECONNECT (srv : Server) (guard : mainloop_locker) (s : pulseaudio) :
    outcome Unit × mainloop_locker × List mainloop_call :=
  match connect srv s with
  | (.error e, s1) =>
    ((.error e, s1), guard.unlock.1, guard.unlock.2 ++ connect_mainloop_calls srv s)
  | (.ok u, s1) =>
    let temporary := mainloop_locker.create s1.m_mainloop
    ((.ok u, s1), ⟨temporary.1.m_loop⟩,
      guard.unlock.2 ++ connect_mainloop_calls srv s ++ temporary.2 ++ temporary.1.destroy)

/-- How many times the consumer thread holds the lock of the current mainloop after `calls`:
a new mainloop is not locked. -/
def held (calls : List mainloop_call) : Int :=
  calls.foldl (fun h c =>
    match c with
    | .pa_threaded_mainloop_new => 0
    | .pa_threaded_mainloop_lock => h + 1
    | .pa_threaded_mainloop_unlock => h - 1) 0

/-! ## `drawtypes/animation` -/

/-- The number of values of `size_t` (64 bits). -/
def SIZE_RANGE : Nat := 2 ^ 64

/-- The member variables of `class drawtypes::animation`; `α` is the frame type `label_t`.
`m_framecount` and `m_frame` are `size_t`. -/
structure animation (α : Type) where
  m_frames : List α
  m_framerate_ms : Nat
  m_framecount : Nat
  m_frame : Nat
deriving DecidableEq, Repr

/-- The constructor `animation(unsigned int framerate_ms)`: no frames, and the default member
initialisers for the count and the index. -/
def new_animation {α : Type} (framerate_ms : Nat) : animation α where
  m_frames := []
  m_framerate_ms := framerate_ms
  m_framecount := 0
  m_frame := 0

/-- The constructor `animation(vector<icon_t>&& frames, unsigned int framerate_ms)`; the
index is `m_frames.size() - 1` in `size_t`. -/
def new_animation_of_frames {α : Type} (frames : List α) (framerate_ms : Nat) : animation α where
  m_frames := frames
  m_framerate_ms := framerate_ms
  m_framecount := frames.length % SIZE_RANGE
  m_frame := (frames.length % SIZE_RANGE + SIZE_RANGE - 1) % SIZE_RANGE

/-- The member function `animation::add`. -/
def animation.add {α : Type} (a : animation α) (frame : α) : animation α :=
  { a with
    m_frames := a.m_frames ++ [frame]
    m_framecount := (a.m_frames ++ [frame]).length % SIZE_RANGE
    m_frame := ((a.m_frames ++ [frame]).length % SIZE_RANGE + SIZE_RANGE - 1) % SIZE_RANGE }

/-- The member function `animation::get`: `m_frames[m_frame]`, which has no value when the
index is not that of a frame. -/
def animation.get {α : Type} (a : animation α) : Option α := a.m_frames.get? a.m_frame

/-- The member function `animation::framerate`. -/
def animation.framerate {α : Type} (a : animation α) : Nat := a.m_framerate_ms

/-- The conversion `animation::operator bool`. -/
def animation.to_bool {α : Type} (a : animation α) : Bool := !a.m_frames.isEmpty

/-- The member function `animation::increment`; the remainder by a frame count of zero has
no value. -/
def animation.increment {α : Type} (a : animation α) : Option (animation α) :=
  if a.m_framecount = 0 then none
  else some { a with m_frame := ((a.m_frame + 1) % SIZE_RANGE) % a.m_framecount }

/-- Apply `increment` to the animation `k` times. -/
def animation.increments {α : Type} : Nat → animation α → Option (animation α)
  | 0, a => some a
  | k + 1, a => (a.increment).bind (animation.increments k)

/-- The state every animation is in between calls: the count is the number of frames, which
fits `size_t`, and the index is that of a frame when there is one. -/
def animation.consistent {α : Type} (a : animation α) : Prop :=
  a.m_framecount = a.m_frames.length ∧ a.m_frames.length < SIZE_RANGE ∧
    (1 ≤ a.m_frames.length → a.m_frame < a.m_frames.length)

/-! ## Example data -/

/-- A server on which every step succeeds and whose one sink is `spk`, index 3. -/
def demo_server : Server where
  pa_threaded_mainloop_new := fun _ => true
  pa_context_new := fun _ => true
  pa_context_connect := fun _ => 0
  pa_threaded_mainloop_start := fun _ => 0
  pa_context_get_state := fun _ => pa_context_state_t.PA_CONTEXT_READY
  pa_context_get_sink_info_by_name := fun _ _ =>
    some [⟨some ⟨3, "spk", ⟨[40000, 20000]⟩, false⟩, 0⟩, ⟨none, 1⟩]
  pa_context_get_sink_info_by_index := fun _ _ =>
    some [⟨some ⟨3, "spk", ⟨[40000, 20000]⟩, false⟩, 0⟩, ⟨none, 1⟩]
  pa_context_subscribe := fun _ => some [1]
  pa_context_set_sink_volume_by_index := fun _ _ _ => some [1]
  pa_context_set_sink_mute_by_index := fun _ _ _ => some [1]

/-- A server that reports failure for every set-volume request, and otherwise behaves as
`demo_server`. -/
def demo_rejects : Server :=
  { demo_server with pa_context_set_sink_volume_by_index := fun _ _ _ => some [0] }

/-- The object after a successful construction with no sink name and the flag false. -/
def demo_connected : pulseaudio := (construct demo_server "" false ⟨[]⟩).2

/-- The object after a successful construction and the first `process_events`. -/
def demo_idle : pulseaudio :=
  match process_events demo_server 2 demo_connected with
  | some r => r.2
  | none => demo_connected

/-- The object `demo_idle` once the state callback has seen the context fail. -/
def demo_failed : pulseaudio :=
  context_state_callback demo_idle pa_context_state_t.PA_CONTEXT_FAILED

/-- The object after a successful construction with the sink name `spk`, once the state
callback has seen the context fail. -/
def demo_named_failed : pulseaudio :=
  context_state_callback { (construct demo_server "spk" false ⟨[]⟩).2 with m_events := [] }
    pa_context_state_t.PA_CONTEXT_FAILED

/-- The object `demo_failed` with two more events queued behind the `RECONNECT`. -/
def demo_failed_busy : pulseaudio :=
  { demo_failed with m_events := [evtype.RECONNECT, evtype.NEW, evtype.CHANGE] }

/-- The object `demo_idle` with a cached volume close to the ceiling. -/
def demo_loud : pulseaudio := { demo_idle with cv := ⟨[65000, 30000]⟩ }

/-- An animation of three frames. -/
def demo_animation : animation String := new_animation_of_frames ["a", "b", "c"] 1000

/-- The sink `spk`, index 3. -/
def demo_spk : pa_sink_info := ⟨3, "spk", ⟨[40000, 20000]⟩, false⟩

/-- The sink `hdmi`, index 7. -/
def demo_hdmi : pa_sink_info := ⟨7, "hdmi", ⟨[30000, 30000]⟩, false⟩

/-- A server on which every step succeeds and whose only sink, `d`, is the default sink: a
look-up of any other name reports no sink. -/
def demo_server_with_default (d : pa_sink_info) : Server :=
  { demo_server with
    pa_context_get_sink_info_by_name := fun _ name =>
      if name = DEFAULT_SINK ∨ name = d.name then some [⟨some d, 0⟩, ⟨none, 1⟩]
      else some [⟨none, -1⟩]
    pa_context_get_sink_info_by_index := fun _ idx =>
      if idx = d.index then some [⟨some d, 0⟩, ⟨none, 1⟩] else some [⟨none, -1⟩] }

/-- The object constructed with no sink name against a server whose default sink is `spk`,
after its first `process_events`, once the state callback has seen the context fail. -/
def demo_unnamed_lost : pulseaudio :=
  match process_events (demo_server_with_default demo_spk) 2
      (construct (demo_server_with_default demo_spk) "" false ⟨[]⟩).2 with
  | some r => context_state_callback r.2 pa_context_state_t.PA_CONTEXT_FAILED
  | none => initial "" ⟨[]⟩

/-- The object constructed with the sink name `usb` against a server that has no such sink
and whose default sink is `spk`, after its first `process_events`, once the state callback
has seen the context fail. -/
def demo_usb_lost : pulseaudio :=
  match process_events (demo_server_with_default demo_spk) 2
      (construct (demo_server_with_default demo_spk) "usb" false ⟨[]⟩).2 with
  | some r => context_state_callback r.2 pa_context_state_t.PA_CONTEXT_FAILED
  | none => initial "usb" ⟨[]⟩

/-- Inside the range the clamp of `percentage_to_value` does nothing: the raw value is the
rounded product. -/
theorem percentage_to_value_norm_cast (p : ℚ) (h0 : 0 ≤ p) (h1 : p ≤ 100) :
    ((percentage_to_value p PA_VOLUME_MUTED PA_VOLUME_NORM : Nat) : ℚ)
      = ((⌊p / 100 * 65536 + 1 / 2⌋ : ℤ) : ℚ) := by
  have hlo : (0 : ℤ) ≤ ⌊p / 100 * 65536 + 1 / 2⌋ := by
    apply Int.floor_nonneg.mpr
    have : 0 ≤ p / 100 * 65536 := by positivity
    linarith
  have hhi : ⌊p / 100 * 65536 + 1 / 2⌋ ≤ (65536 : ℤ) := by
    have : ⌊p / 100 * 65536 + 1 / 2⌋ < (65537 : ℤ) := by
      apply Int.floor_lt.mpr
      have : p / 100 * 65536 ≤ 65536 := by linarith
      push_cast
      linarith
    omega
  unfold percentage_to_value
  simp only [PA_VOLUME_MUTED, PA_VOLUME_NORM, round_eq, Nat.cast_zero, sub_zero, Nat.cast_ofNat]
  rw [min_eq_left hhi, max_eq_right hlo]
  have := Int.toNat_of_nonneg hlo
  exact_mod_cast congrArg (fun z : ℤ => (z : ℚ)) this

/-- C1. For every percentage `p` with `0 ≤ p ≤ 100`, the raw volume `set_volume` computes
from `p` (`percentage_to_value` over `PA_VOLUME_MUTED..PA_VOLUME_NORM`), converted back the
way `get_volume` does, is a percentage that differs from `p` by at most 1. -/
theorem C1_percentage_round_trip (p : ℚ) (h0 : 0 ≤ p) (h1 : p ≤ 100) :
    |((raw_to_percentage (percentage_to_value p PA_VOLUME_MUTED PA_VOLUME_NORM) : ℤ) : ℚ) - p|
      ≤ 1 := by
  have hc := percentage_to_value_norm_cast p h0 h1
  have hr1 : ((⌊p / 100 * 65536 + 1 / 2⌋ : ℤ) : ℚ) ≤ p / 100 * 65536 + 1 / 2 := Int.floor_le _
  have hr2 : p / 100 * 65536 + 1 / 2 < ((⌊p / 100 * 65536 + 1 / 2⌋ : ℤ) : ℚ) + 1 :=
    Int.lt_floor_add_one _
  have hr0 : (0 : ℚ) ≤ ((⌊p / 100 * 65536 + 1 / 2⌋ : ℤ) : ℚ) := by
    have : (0 : ℤ) ≤ ⌊p / 100 * 65536 + 1 / 2⌋ := by
      apply Int.floor_nonneg.mpr
      have : 0 ≤ p / 100 * 65536 := by positivity
      linarith
    exact_mod_cast this
  unfold raw_to_percentage
  simp only [hc]
  simp only [PA_VOLUME_NORM, Nat.cast_ofNat]
  set r : ℚ := ((⌊p / 100 * 65536 + 1 / 2⌋ : ℤ) : ℚ) with hr
  have hx : (0 : ℚ) ≤ r * 100 / 65536 + 1 / 2 := by positivity
  rw [if_pos hx]
  have hf1 : ((⌊r * 100 / 65536 + 1 / 2⌋ : ℤ) : ℚ) ≤ r * 100 / 65536 + 1 / 2 := Int.floor_le _
  have hf2 : r * 100 / 65536 + 1 / 2 < ((⌊r * 100 / 65536 + 1 / 2⌋ : ℤ) : ℚ) + 1 :=
    Int.lt_floor_add_one _
  rw [abs_le]
  constructor <;> linarith

/-- C1 at 37 percent. -/
theorem C1_percentage_round_trip_witness :
    |((raw_to_percentage (percentage_to_value 37 PA_VOLUME_MUTED PA_VOLUME_NORM) : ℤ) : ℚ) - 37|
      ≤ 1 :=
  C1_percentage_round_trip 37 (by norm_num) (by norm_num)


/-! ## The loudest channel -/

/-- The running maximum is at least its start value. -/
theorem foldl_max_init_le (l : List Nat) (a : Nat) :
    a ≤ l.foldl (fun m x => if x > m then x else m) a := by
  induction l generalizing a with
  | nil => simp
  | cons y ys ih =>
    simp only [List.foldl_cons]
    refine le_trans ?_ (ih _)
    split <;> omega

/-- The running maximum is at least every element. -/
theorem foldl_max_mem_le (l : List Nat) (a x : Nat) (hx : x ∈ l) :
    x ≤ l.foldl (fun m x => if x > m then x else m) a := by
  induction l generalizing a with
  | nil => simp at hx
  | cons y ys ih =>
    simp only [List.foldl_cons]
    rcases List.mem_cons.mp hx with h | h
    · subst h
      refine le_trans ?_ (foldl_max_init_le ys _)
      split <;> omega
    · exact ih _ h

/-- A bound on the start value and on every element bounds the running maximum. -/
theorem foldl_max_le (l : List Nat) (a b : Nat) (ha : a ≤ b) (hl : ∀ x ∈ l, x ≤ b) :
    l.foldl (fun m x => if x > m then x else m) a ≤ b := by
  induction l generalizing a with
  | nil => simpa using ha
  | cons y ys ih =>
    simp only [List.foldl_cons]
    apply ih
    · have := hl y (List.mem_cons_self _ _)
      split <;> omega
    · intro x hx
      exact hl x (List.mem_cons_of_mem _ hx)

/-- The running maximum is its start value or one of the elements. -/
theorem foldl_max_eq_or_mem (l : List Nat) (a : Nat) :
    l.foldl (fun m x => if x > m then x else m) a = a ∨
      l.foldl (fun m x => if x > m then x else m) a ∈ l := by
  induction l generalizing a with
  | nil => simp
  | cons y ys ih =>
    simp only [List.foldl_cons]
    rcases ih (if y > a then y else a) with h | h
    · rw [h]
      by_cases hy : y > a
      · simp [hy]
      · simp [hy]
    · exact Or.inr (List.mem_cons_of_mem _ h)

/-- On a valid volume `pa_cvolume_max` is the running maximum. -/
theorem pa_cvolume_max_valid (v : pa_cvolume) (hv : pa_cvolume_valid v = true) :
    pa_cvolume_max v = v.values.foldl (fun m x => if x > m then x else m) PA_VOLUME_MUTED := by
  simp [pa_cvolume_max, hv]

/-- On an invalid volume `pa_cvolume_max` is silence. -/
theorem pa_cvolume_max_invalid (v : pa_cvolume) (hv : pa_cvolume_valid v = false) :
    pa_cvolume_max v = PA_VOLUME_MUTED := by
  simp [pa_cvolume_max, hv]

/-- Every channel of a valid volume is at most the loudest one. -/
theorem pa_cvolume_max_ge (v : pa_cvolume) (hv : pa_cvolume_valid v = true) (x : Nat)
    (hx : x ∈ v.values) : x ≤ pa_cvolume_max v := by
  rw [pa_cvolume_max_valid v hv]
  exact foldl_max_mem_le v.values _ x hx

/-- A bound on every channel bounds the loudest one. -/
theorem pa_cvolume_max_le (v : pa_cvolume) (b : Nat) (hl : ∀ x ∈ v.values, x ≤ b) :
    pa_cvolume_max v ≤ b := by
  unfold pa_cvolume_max
  split
  · exact foldl_max_le v.values _ b (Nat.zero_le _) hl
  · exact Nat.zero_le _

/-- A valid volume has a channel. -/
theorem pa_cvolume_valid_ne_nil (v : pa_cvolume) (hv : pa_cvolume_valid v = true) :
    v.values ≠ [] := by
  intro h
  simp [pa_cvolume_valid, h] at hv

/-- The loudest channel of a valid volume is one of its channels. -/
theorem pa_cvolume_max_mem (v : pa_cvolume) (hv : pa_cvolume_valid v = true) :
    pa_cvolume_max v ∈ v.values := by
  have hne := pa_cvolume_valid_ne_nil v hv
  have hge := pa_cvolume_max_ge v hv
  rw [pa_cvolume_max_valid v hv] at hge ⊢
  rcases foldl_max_eq_or_mem v.values PA_VOLUME_MUTED with h | h
  · cases hvs : v.values with
    | nil => exact absurd hvs hne
    | cons y ys =>
      rw [hvs] at h hge
      have hy := hge y (by simp)
      rw [h] at hy ⊢
      have : y = PA_VOLUME_MUTED := by
        simp only [PA_VOLUME_MUTED] at hy ⊢
        omega
      rw [← this]
      simp
  · exact h

/-- The clamp leaves a valid volume as it is. -/
theorem PA_CLAMP_VOLUME_of_le (x : Nat) (hx : x ≤ PA_VOLUME_MAX) : PA_CLAMP_VOLUME x = x := by
  unfold PA_CLAMP_VOLUME PA_VOLUME_MUTED
  simp only [PA_VOLUME_MAX] at hx
  simp only [PA_VOLUME_MAX]
  split
  · omega
  · split <;> omega

/-- A volume with the channels of a valid one, each at most `PA_VOLUME_MAX`, is valid. -/
theorem pa_cvolume_valid_map (v : pa_cvolume) (f : Nat → Nat)
    (hv : pa_cvolume_valid v = true) (hf : ∀ x ∈ v.values, f x ≤ PA_VOLUME_MAX) :
    pa_cvolume_valid ⟨v.values.map f⟩ = true := by
  simp only [pa_cvolume_valid, Bool.and_eq_true, decide_eq_true_eq, List.all_eq_true,
    List.length_map, List.mem_map, forall_exists_index, and_imp] at hv ⊢
  refine ⟨hv.1, ?_⟩
  intro y x hx hxy
  rw [← hxy]
  exact hf x hx

/-- On a valid volume `pa_cvolume_scale` makes the loudest channel exactly `m`. -/
theorem pa_cvolume_max_scale (v : pa_cvolume) (m : Nat) (hv : pa_cvolume_valid v = true)
    (hm : m ≤ PA_VOLUME_MAX) : pa_cvolume_max (pa_cvolume_scale v m) = m := by
  have hinv : (m == PA_VOLUME_INVALID) = false := by
    simp only [PA_VOLUME_MAX] at hm
    simp only [PA_VOLUME_INVALID, beq_eq_false_iff_ne]
    omega
  have hmem := pa_cvolume_max_mem v hv
  unfold pa_cvolume_scale
  simp only [hv, hinv, Bool.not_true, Bool.or_self, Bool.false_eq_true, if_false]
  split
  · -- every channel is silent: all of them are set to `m`
    have hval : pa_cvolume_valid (pa_cvolume_set v m) = true :=
      pa_cvolume_valid_map v _ hv (fun _ _ => by rw [PA_CLAMP_VOLUME_of_le m hm]; exact hm)
    apply le_antisymm
    · apply pa_cvolume_max_le
      intro x hx
      simp only [pa_cvolume_set, List.mem_map] at hx
      obtain ⟨_, _, rfl⟩ := hx
      rw [PA_CLAMP_VOLUME_of_le m hm]
    · apply pa_cvolume_max_ge _ hval
      simp only [pa_cvolume_set, List.mem_map]
      exact ⟨_, hmem, PA_CLAMP_VOLUME_of_le m hm⟩
  · rename_i ht
    have htpos : 0 < pa_cvolume_max v := by
      simp only [PA_VOLUME_MUTED] at ht
      omega
    have hle : ∀ y ∈ v.values, y * m / pa_cvolume_max v ≤ m := by
      intro y hy
      apply Nat.div_le_of_le_mul
      exact Nat.mul_le_mul_right m (pa_cvolume_max_ge v hv y hy)
    have hval : pa_cvolume_valid
        ⟨v.values.map (fun x => PA_CLAMP_VOLUME (x * m / pa_cvolume_max v))⟩ = true :=
      pa_cvolume_valid_map v _ hv (fun y hy => by
        rw [PA_CLAMP_VOLUME_of_le _ (le_trans (hle y hy) hm)]
        exact le_trans (hle y hy) hm)
    apply le_antisymm
    · apply pa_cvolume_max_le
      intro x hx
      simp only [List.mem_map] at hx
      obtain ⟨y, hy, rfl⟩ := hx
      rw [PA_CLAMP_VOLUME_of_le _ (le_trans (hle y hy) hm)]
      exact hle y hy
    · apply pa_cvolume_max_ge _ hval
      simp only [List.mem_map]
      refine ⟨_, hmem, ?_⟩
      rw [Nat.mul_div_cancel_left m htpos]
      exact PA_CLAMP_VOLUME_of_le m hm

/-- An invalid volume is left alone by `pa_cvolume_scale`. -/
theorem pa_cvolume_scale_invalid (v : pa_cvolume) (m : Nat) (hv : pa_cvolume_valid v = false) :
    pa_cvolume_scale v m = v := by
  simp [pa_cvolume_scale, hv]

/-- The raw equivalent of a percentage of `PA_VOLUME_NORM` is at most `PA_VOLUME_NORM`. -/
theorem percentage_to_value_of_max_le (p : ℚ) :
    percentage_to_value_of_max p PA_VOLUME_NORM ≤ PA_VOLUME_NORM := by
  unfold percentage_to_value_of_max percentage_to_value
  rw [Int.toNat_le]
  apply max_le
  · simp [PA_VOLUME_NORM]
  · exact min_le_right _ _

/-- The raw equivalent of at least one percent of `PA_VOLUME_NORM` is not zero. -/
theorem percentage_to_value_of_max_pos (p : ℚ) (hp : 1 ≤ p) :
    0 < percentage_to_value_of_max p PA_VOLUME_NORM := by
  unfold percentage_to_value_of_max percentage_to_value
  rw [Int.lt_toNat]
  apply lt_max_of_lt_right
  apply lt_min
  · rw [round_eq]
    have h1 : (1 : ℤ) ≤ ⌊p / 100 * ((PA_VOLUME_NORM : ℚ) - ((0 : Nat) : ℚ)) + 1 / 2⌋ := by
      apply Int.le_floor.mpr
      simp only [PA_VOLUME_NORM, Nat.cast_ofNat, Nat.cast_zero, sub_zero, Int.cast_one]
      linarith
    simpa using h1
  · simp [PA_VOLUME_NORM]

/-- The completion callbacks of a simple operation write `success` and nothing else. -/
theorem wait_loop_simple_callback (calls : List Int) (s : pulseaudio) :
    wait_loop simple_callback calls s
      = { s with success := calls.foldl (fun _ c => c) s.success } := by
  induction calls generalizing s with
  | nil => rfl
  | cons c cs ih =>
    simp only [wait_loop, List.foldl_cons] at ih ⊢
    rw [ih]
    simp [simple_callback]

/-- Submitting the cached volume changes neither the cache nor the ceiling. -/
theorem send_volume_frame (srv : Server) (s : pulseaudio) :
    (send_volume srv s).2.cv = s.cv ∧ (send_volume srv s).2.muted = s.muted ∧
      (send_volume srv s).2.m_max_volume = s.m_max_volume := by
  unfold send_volume
  split
  · simp [submit]
  · simp only [wait_loop_simple_callback]
    split <;> simp [submit]

/-- What `inc_volume` does to the loudest channel of a cache that is at most the ceiling, for a
positive step: it stays at most the ceiling, is exactly the ceiling when the step would
overshoot, and a cache already at the ceiling is not changed. -/
theorem inc_volume_cv_ceiling (s : pulseaudio) (delta_perc : Int)
    (hm : s.m_max_volume ≤ PA_VOLUME_UI_MAX) (hc : pa_cvolume_max s.cv ≤ s.m_max_volume)
    (hd : 0 < delta_perc) :
    pa_cvolume_max (inc_volume_cv delta_perc s) ≤ s.m_max_volume ∧
    (pa_cvolume_valid s.cv = true → pa_cvolume_max s.cv < s.m_max_volume →
      s.m_max_volume <
        pa_cvolume_max s.cv + percentage_to_value_of_max (delta_perc.natAbs : ℚ) PA_VOLUME_NORM →
      pa_cvolume_max (inc_volume_cv delta_perc s) = s.m_max_volume) ∧
    (pa_cvolume_max s.cv = s.m_max_volume → inc_volume_cv delta_perc s = s.cv) := by
  have hvol := percentage_to_value_of_max_le (delta_perc.natAbs : ℚ)
  have hpos : 0 < percentage_to_value_of_max (delta_perc.natAbs : ℚ) PA_VOLUME_NORM := by
    apply percentage_to_value_of_max_pos
    have : 1 ≤ delta_perc.natAbs := by omega
    exact_mod_cast this
  simp only [PA_VOLUME_NORM] at hvol hpos
  simp only [PA_VOLUME_UI_MAX] at hm
  unfold inc_volume_cv
  simp only [PA_VOLUME_NORM, gt_iff_lt, hd, if_true]
  generalize percentage_to_value_of_max (delta_perc.natAbs : ℚ) 65536 = vol at hvol hpos ⊢
  have hmod : (pa_cvolume_max s.cv + vol) % 2 ^ 32 = pa_cvolume_max s.cv + vol := by
    apply Nat.mod_eq_of_lt
    norm_num
    omega
  rw [hmod]
  have hmmax : s.m_max_volume ≤ PA_VOLUME_MAX := by simp only [PA_VOLUME_MAX]; omega
  by_cases h1 : pa_cvolume_max s.cv + vol ≤ s.m_max_volume
  · simp only [h1, if_true]
    refine ⟨?_, fun _ _ h => absurd h1 (by omega), fun h => absurd h1 (by omega)⟩
    unfold pa_cvolume_inc pa_cvolume_inc_clamp
    cases hv : pa_cvolume_valid s.cv with
    | false => simpa using hc
    | true =>
      have hnot : ¬ (vol > PA_VOLUME_MAX) := by simp only [PA_VOLUME_MAX]; omega
      have hlt : ¬ (pa_cvolume_max s.cv ≥ PA_VOLUME_MAX - vol) := by
        simp only [PA_VOLUME_MAX]; omega
      simp only [Bool.not_true, hnot, decide_False, Bool.or_self, Bool.false_eq_true, if_false,
        hlt]
      rw [pa_cvolume_max_scale _ _ hv (by simp only [PA_VOLUME_MAX]; omega)]
      exact h1
  · simp only [h1, if_false]
    by_cases h2 : pa_cvolume_max s.cv < s.m_max_volume
    · simp only [h2, if_true]
      refine ⟨?_, fun hv _ _ => pa_cvolume_max_scale _ _ hv hmmax, fun h => absurd h2 (by omega)⟩
      cases hv : pa_cvolume_valid s.cv with
      | false => rw [pa_cvolume_scale_invalid _ _ hv]; exact hc
      | true => rw [pa_cvolume_max_scale _ _ hv hmmax]
    · rw [if_neg h2]
      exact ⟨hc, fun _ h => absurd h h2, fun _ => rfl⟩

/-- C2. For every cached volume whose loudest channel is at most the configured ceiling
`m_max_volume` and every positive `delta_perc`, `inc_volume` leaves the loudest channel at
most `m_max_volume`; when the loudest channel is below the ceiling and adding the raw
equivalent of `delta_perc` would exceed it, the loudest channel afterwards is exactly
`m_max_volume`; and a cache whose loudest channel is at the ceiling is not changed by a positive
increment. The ceiling is one of the two values the constructor assigns; the snap needs a
cached volume that libpulse accepts as valid. -/
theorem C2_inc_volume_respects_ceiling (srv : Server) (s : pulseaudio) (delta_perc : Int)
    (hm : s.m_max_volume = PA_VOLUME_NORM ∨ s.m_max_volume = PA_VOLUME_UI_MAX)
    (hc : pa_cvolume_max s.cv ≤ s.m_max_volume) (hd : 0 < delta_perc) :
    pa_cvolume_max (inc_volume srv delta_perc s).2.cv ≤ s.m_max_volume ∧
    (inc_volume srv delta_perc s).2.m_max_volume = s.m_max_volume ∧
    (pa_cvolume_valid s.cv = true → pa_cvolume_max s.cv < s.m_max_volume →
      s.m_max_volume <
        pa_cvolume_max s.cv + percentage_to_value_of_max (delta_perc.natAbs : ℚ) PA_VOLUME_NORM →
      pa_cvolume_max (inc_volume srv delta_perc s).2.cv = s.m_max_volume) ∧
    (pa_cvolume_max s.cv = s.m_max_volume → (inc_volume srv delta_perc s).2.cv = s.cv) := by
  have hle : s.m_max_volume ≤ PA_VOLUME_UI_MAX := by
    rcases hm with h | h
    · rw [h]; simp [PA_VOLUME_NORM, PA_VOLUME_UI_MAX]
    · rw [h]
  obtain ⟨h1, h2, h3⟩ := inc_volume_cv_ceiling s delta_perc hle hc hd
  obtain ⟨f1, -, f3⟩ := send_volume_frame srv { s with cv := inc_volume_cv delta_perc s }
  unfold inc_volume
  rw [f1, f3]
  exact ⟨h1, rfl, h2, h3⟩


/-- C2 on `demo_loud`, whose loudest channel is 65000 under the ceiling 65536, and a step of
five percent. -/
theorem C2_inc_volume_respects_ceiling_witness :
    pa_cvolume_max (inc_volume demo_server 5 demo_loud).2.cv ≤ demo_loud.m_max_volume ∧
    (inc_volume demo_server 5 demo_loud).2.m_max_volume = demo_loud.m_max_volume ∧
    (pa_cvolume_valid demo_loud.cv = true →
      pa_cvolume_max demo_loud.cv < demo_loud.m_max_volume →
      demo_loud.m_max_volume <
        pa_cvolume_max demo_loud.cv
          + percentage_to_value_of_max (((5 : Int).natAbs : Nat) : ℚ) PA_VOLUME_NORM →
      pa_cvolume_max (inc_volume demo_server 5 demo_loud).2.cv = demo_loud.m_max_volume) ∧
    (pa_cvolume_max demo_loud.cv = demo_loud.m_max_volume →
      (inc_volume demo_server 5 demo_loud).2.cv = demo_loud.cv) :=
  C2_inc_volume_respects_ceiling demo_server demo_loud 5 (Or.inl (by decide)) (by decide)
    (by decide)

/-- Above 100 percent the clamp of `percentage_to_value` yields the top of the range. -/
theorem percentage_to_value_above (p : ℚ) (hp : 100 < p) :
    percentage_to_value p PA_VOLUME_MUTED PA_VOLUME_NORM = PA_VOLUME_NORM := by
  have hr : (65536 : ℤ) ≤ ⌊p / 100 * 65536 + 1 / 2⌋ := by
    apply Int.le_floor.mpr
    push_cast
    linarith
  unfold percentage_to_value
  simp only [PA_VOLUME_MUTED, PA_VOLUME_NORM, round_eq, Nat.cast_zero, sub_zero, Nat.cast_ofNat]
  rw [min_eq_right hr]
  rfl

/-- The one request `send_volume` makes carries the cached volume. -/
theorem send_volume_trace (srv : Server) (s : pulseaudio) :
    (send_volume srv s).2.trace = s.trace ++ [request.set_sink_volume_by_index s.m_index s.cv] := by
  unfold send_volume
  split
  · simp [submit]
  · simp only [wait_loop_simple_callback]
    split <;> simp [submit]

/-- C3. With the max-volume flag false (ceiling `PA_VOLUME_NORM`), for every percentage above
100 the target raw volume of `set_volume` is exactly the ceiling, and the one request
`set_volume` makes submits a volume whose loudest channel is the ceiling (the cached volume
being one libpulse accepts as valid). -/
theorem C3_set_volume_clamps_to_ceiling (srv : Server) (s : pulseaudio) (p : ℚ)
    (hflag : s.m_max_volume = PA_VOLUME_NORM) (hp : 100 < p) :
    percentage_to_value p PA_VOLUME_MUTED PA_VOLUME_NORM = s.m_max_volume ∧
    (set_volume srv p s).2.trace =
      s.trace ++ [request.set_sink_volume_by_index s.m_index
        (pa_cvolume_scale s.cv s.m_max_volume)] ∧
    (pa_cvolume_valid s.cv = true →
      pa_cvolume_max (pa_cvolume_scale s.cv s.m_max_volume) = s.m_max_volume) := by
  have hvol := percentage_to_value_above p hp
  refine ⟨by rw [hvol, hflag], ?_, ?_⟩
  · unfold set_volume
    rw [send_volume_trace]
    simp only [hvol, hflag]
  · intro hv
    apply pa_cvolume_max_scale _ _ hv
    rw [hflag]
    simp [PA_VOLUME_NORM, PA_VOLUME_MAX]


/-- C3 on `demo_idle` and 150 percent. -/
theorem C3_set_volume_clamps_to_ceiling_witness :
    percentage_to_value 150 PA_VOLUME_MUTED PA_VOLUME_NORM = demo_idle.m_max_volume ∧
    (set_volume demo_server 150 demo_idle).2.trace =
      demo_idle.trace ++ [request.set_sink_volume_by_index demo_idle.m_index
        (pa_cvolume_scale demo_idle.cv demo_idle.m_max_volume)] ∧
    (pa_cvolume_valid demo_idle.cv = true →
      pa_cvolume_max (pa_cvolume_scale demo_idle.cv demo_idle.m_max_volume)
        = demo_idle.m_max_volume) :=
  C3_set_volume_clamps_to_ceiling demo_server demo_idle 150 (by decide) (by norm_num)

/-! ## What a round-trip may change -/

/-- The callbacks of a resolution write the sink index and the sink name, nothing else. -/
theorem wait_loop_sink_info_callback (calls : List info_call) (s : pulseaudio) :
    ∃ i n, wait_loop sink_info_callback calls s = { s with m_index := i, s_name := n } := by
  induction calls generalizing s with
  | nil => exact ⟨s.m_index, s.s_name, rfl⟩
  | cons c cs ih =>
    simp only [wait_loop, List.foldl_cons] at ih ⊢
    obtain ⟨i, n, h⟩ := ih (sink_info_callback s c)
    refine ⟨i, n, ?_⟩
    rw [h]
    unfold sink_info_callback
    split
    · split <;> rfl
    · rfl

/-- The callbacks of a volume refresh write the cached volume and mute flag, nothing else. -/
theorem wait_loop_get_sink_volume_callback (calls : List info_call) (s : pulseaudio) :
    ∃ c m, wait_loop get_sink_volume_callback calls s = { s with cv := c, muted := m } := by
  induction calls generalizing s with
  | nil => exact ⟨s.cv, s.muted, rfl⟩
  | cons c cs ih =>
    simp only [wait_loop, List.foldl_cons] at ih ⊢
    obtain ⟨v, m, h⟩ := ih (get_sink_volume_callback s c)
    refine ⟨v, m, ?_⟩
    rw [h]
    unfold get_sink_volume_callback
    split <;> rfl

/-- A resolution round-trip logs its request, advances time, and may write the sink index
and name. -/
theorem get_sink_info_by_name_frame (srv : Server) (name : String) (s : pulseaudio) :
    ∃ i n, (get_sink_info_by_name srv name s).2 =
      { s with m_index := i, s_name := n, clock := s.clock + 1,
               trace := s.trace ++ [request.get_sink_info_by_name name] } := by
  unfold get_sink_info_by_name
  split
  · exact ⟨s.m_index, s.s_name, rfl⟩
  · rename_i calls _
    obtain ⟨i, n, h⟩ := wait_loop_sink_info_callback calls
      (submit (request.get_sink_info_by_name name) s)
    exact ⟨i, n, by rw [h]; rfl⟩

/-- A volume refresh logs its request, advances time, and may write the cached volume and
mute flag. -/
theorem update_volume_frame (srv : Server) (s : pulseaudio) :
    ∃ c m, (update_volume srv s).2 =
      { s with cv := c, muted := m, clock := s.clock + 1,
               trace := s.trace ++ [request.get_sink_info_by_index s.m_index] } := by
  unfold update_volume
  split
  · exact ⟨s.cv, s.muted, rfl⟩
  · rename_i calls _
    obtain ⟨c, m, h⟩ := wait_loop_get_sink_volume_callback calls
      (submit (request.get_sink_info_by_index s.m_index) s)
    exact ⟨c, m, by rw [h]; rfl⟩

/-- The switch leaves the queue alone for every event but `RECONNECT`. -/
theorem dispatch_m_events (srv : Server) (ev : evtype) (s : pulseaudio)
    (hev : ev ≠ evtype.RECONNECT) : (dispatch srv ev s).2.m_events = s.m_events := by
  have key : ∀ name, (get_sink_info_by_name srv name s).2.m_events = s.m_events := by
    intro name
    obtain ⟨i, n, h⟩ := get_sink_info_by_name_frame srv name s
    rw [h]
  cases ev with
  | RECONNECT => exact absurd rfl hev
  | NEW =>
    simp only [dispatch, case_NEW, case_SERVER, case_REMOVE]
    split
    · exact key _
    · exact key _
  | SERVER =>
    simp only [dispatch, case_SERVER, case_REMOVE]
    split
    · rfl
    · exact key _
  | REMOVE => exact key _
  | NOP => rfl
  | CHANGE => rfl

/-- A volume refresh leaves the queue alone. -/
theorem update_volume_m_events (srv : Server) (s : pulseaudio) :
    (update_volume srv s).2.m_events = s.m_events := by
  obtain ⟨c, m, h⟩ := update_volume_frame srv s
  rw [h]

/-- One iteration leaves the queue alone for every event but `RECONNECT`. -/
theorem process_event_m_events (srv : Server) (ev : evtype) (s : pulseaudio)
    (hev : ev ≠ evtype.RECONNECT) : (process_event srv ev s).2.m_events = s.m_events := by
  have hd := dispatch_m_events srv ev s hev
  unfold process_event
  split
  · rename_i e s1 h
    rw [h] at hd
    exact hd
  · rename_i u s1 h
    rw [h] at hd
    rw [update_volume_m_events]
    exact hd

/-! ## Connecting -/

/-- The subscription step writes `success`, logs its request, and appends the seeding `NOP`
exactly when it succeeds. -/
theorem connect_subscribe_frame (srv : Server) (s : pulseaudio) :
    ∃ succ q, (connect_subscribe srv s).2 =
      { s with success := succ, m_events := q, clock := s.clock + 1,
               trace := s.trace ++ [request.subscribe] } ∧
      (∀ u, (connect_subscribe srv s).1 = .ok u → q = s.m_events ++ [evtype.NOP]) := by
  unfold connect_subscribe
  split
  · exact ⟨s.success, s.m_events, rfl, fun u h => by simp at h⟩
  · rename_i calls _
    simp only [wait_loop_simple_callback]
    split
    · exact ⟨_, s.m_events, rfl, fun u h => by simp at h⟩
    · exact ⟨_, s.m_events ++ [evtype.NOP], rfl, fun _ _ => rfl⟩

/-- The sink look-ups and the subscription of `connect` write the sink identity and `success`,
and append the seeding `NOP` exactly when they succeed. -/
theorem connect_sinks_frame (srv : Server) (s : pulseaudio) :
    ∃ succ q i n t tr, (connect_sinks srv s).2 =
      { s with success := succ, m_events := q, m_index := i, s_name := n, clock := t,
               trace := tr } ∧
      (∀ u, (connect_sinks srv s).1 = .ok u → q = s.m_events ++ [evtype.NOP]) := by
  have step : ∀ (b : Bool) (name : String) (x : pulseaudio),
      ∃ i n t tr, (if b = true then get_sink_info_by_name srv name x else (.ok (), x)).2 =
        { x with m_index := i, s_name := n, clock := t, trace := tr } := by
    intro b name x
    cases b with
    | false => exact ⟨x.m_index, x.s_name, x.clock, x.trace, rfl⟩
    | true =>
      obtain ⟨i, n, h⟩ := get_sink_info_by_name_frame srv name x
      exact ⟨i, n, _, _, by simpa using h⟩
  obtain ⟨i1, n1, t1, tr1, h1⟩ := step (decide (s.spec_s_name ≠ "")) s.spec_s_name s
  simp only [decide_eq_true_eq] at h1
  unfold connect_sinks
  split
  · rename_i e s1 hr1
    rw [hr1] at h1
    simp only at h1
    exact ⟨s.success, s.m_events, i1, n1, t1, tr1, by rw [h1], fun u h => by simp at h⟩
  · rename_i u1 s1 hr1
    rw [hr1] at h1
    simp only at h1
    obtain ⟨i2, n2, t2, tr2, h2⟩ := step (decide (s1.s_name = "")) DEFAULT_SINK s1
    simp only [decide_eq_true_eq] at h2
    split
    · rename_i e s2 hr2
      rw [hr2] at h2
      simp only at h2
      exact ⟨s.success, s.m_events, i2, n2, t2, tr2, by rw [h2, h1], fun u h => by simp at h⟩
    · rename_i u2 s2 hr2
      rw [hr2] at h2
      simp only at h2
      obtain ⟨succ, q, h3, hq⟩ := connect_subscribe_frame srv s2
      refine ⟨succ, q, i2, n2, t2 + 1, tr2 ++ [request.subscribe], ?_, ?_⟩
      · rw [h3, h2, h1]
      · intro u hu
        rw [hq u hu, h2, h1]

/-- What `connect` leaves behind: the disconnected flag, the configuration, the cached volume
and mute flag are not written; and when `connect` completes, both handles are set and the
queue holds exactly the seeding `NOP`. -/
theorem connect_frame (srv : Server) (s : pulseaudio) :
    (connect srv s).2.m_disconnected = s.m_disconnected ∧
    (connect srv s).2.spec_s_name = s.spec_s_name ∧
    (connect srv s).2.m_max_volume = s.m_max_volume ∧
    (connect srv s).2.cv = s.cv ∧ (connect srv s).2.muted = s.muted ∧
    (∀ u, (connect srv s).1 = .ok u →
      (connect srv s).2.m_events = [evtype.NOP] ∧ (connect srv s).2.m_mainloop = true ∧
      (connect srv s).2.m_context = true) := by
  unfold connect
  simp only
  split
  · exact ⟨rfl, rfl, rfl, rfl, rfl, fun u h => by simp at h⟩
  · rename_i hml
    split
    · exact ⟨rfl, rfl, rfl, rfl, rfl, fun u h => by simp at h⟩
    · split
      · exact ⟨rfl, rfl, rfl, rfl, rfl, fun u h => by simp at h⟩
      · split
        · exact ⟨rfl, rfl, rfl, rfl, rfl, fun u h => by simp at h⟩
        · split
          · rename_i hst
            refine ⟨?_, ?_, ?_, ?_, ?_, fun u h => by simp at h⟩ <;>
              (cases srv.pa_context_get_state s.clock <;> rfl)
          · rename_i hst
            have hready : srv.pa_context_get_state s.clock
                = pa_context_state_t.PA_CONTEXT_READY := by
              by_contra hne
              exact hst hne
            rw [hready]
            simp only [context_state_callback]
            obtain ⟨succ, q, i, n, t, tr, h, hq⟩ := connect_sinks_frame srv
              { s with m_events := [], clock := s.clock + 1,
                       m_mainloop := srv.pa_threaded_mainloop_new s.clock,
                       m_context := true, m_state_callback_signal := true }
            rw [h]
            refine ⟨rfl, rfl, rfl, rfl, rfl, fun u hu => ⟨?_, ?_, rfl⟩⟩
            · simpa using hq u hu
            · simpa using hml

/-! ## Draining the queue -/

/-- A resolution round-trip throws exactly when the operation could not be created. -/
theorem get_sink_info_by_name_error_iff (srv : Server) (name : String) (s : pulseaudio) :
    (∃ e, (get_sink_info_by_name srv name s).1 = .error e) ↔
      srv.pa_context_get_sink_info_by_name s.clock name = none := by
  unfold get_sink_info_by_name
  split
  · rename_i h
    simp [h]
  · rename_i calls h
    simp [h]

/-- A resolution round-trip whose operation is created returns normally. -/
theorem get_sink_info_by_name_ok (srv : Server) (name : String) (s : pulseaudio)
    (h : srv.pa_context_get_sink_info_by_name s.clock name ≠ none) :
    (get_sink_info_by_name srv name s).1 = .ok () := by
  unfold get_sink_info_by_name
  split
  · rename_i hn
    exact absurd hn h
  · rfl

/-- An iteration ends the way its switch ends: the refresh never throws out of it. -/
theorem process_event_fst (srv : Server) (ev : evtype) (s : pulseaudio) :
    (process_event srv ev s).1 = (dispatch srv ev s).1 := by
  unfold process_event
  split
  · rename_i e s1 h
    rw [h]
  · rename_i u s1 h
    rw [h]

/-- A completed reconnect iteration leaves exactly the seeding `NOP` in the queue. -/
theorem process_event_reconnect_m_events (srv : Server) (s : pulseaudio) (u : Unit)
    (h : (process_event srv evtype.RECONNECT s).1 = .ok u) :
    (process_event srv evtype.RECONNECT s).2.m_events = [evtype.NOP] := by
  have hf := (connect_frame srv s).2.2.2.2.2
  rw [process_event_fst] at h
  unfold process_event
  simp only [dispatch] at h ⊢
  split
  · rename_i e s1 hc
    rw [hc] at h
    simp at h
  · rename_i u1 s1 hc
    rw [update_volume_m_events]
    have := (hf u1 (by rw [hc])).1
    rw [hc] at this
    exact this

/-- The loop ends within one iteration per queued event, and one more when a `RECONNECT` is
queued: with that much fuel it produces an outcome. -/
theorem process_loop_total (srv : Server) (fuel : Nat) (s : pulseaudio)
    (hfuel : s.m_events.length + (if evtype.RECONNECT ∈ s.m_events then 1 else 0) ≤ fuel) :
    ∃ out, process_loop srv fuel s = some out := by
  induction fuel generalizing s with
  | zero =>
    have : s.m_events = [] := by
      apply List.length_eq_zero.mp
      omega
    exact ⟨(.ok (), s), by simp [process_loop, this]⟩
  | succ f ih =>
    cases hs : s.m_events with
    | nil => exact ⟨(.ok (), s), by simp [process_loop, hs]⟩
    | cons ev rest =>
      simp only [process_loop, hs]
      rw [hs] at hfuel
      by_cases hev : ev = evtype.RECONNECT
      · subst hev
        have hm := process_event_reconnect_m_events srv { s with m_events := rest }
        generalize process_event srv evtype.RECONNECT { s with m_events := rest } = r at hm
        obtain ⟨r1, s1⟩ := r
        cases r1 with
        | error e => exact ⟨_, rfl⟩
        | ok u =>
          simp only at hm ⊢
          apply ih
          rw [hm u trivial]
          simp at hfuel ⊢
          omega
      · have hm := process_event_m_events srv ev { s with m_events := rest } hev
        generalize process_event srv ev { s with m_events := rest } = r at hm
        obtain ⟨r1, s1⟩ := r
        cases r1 with
        | error e => exact ⟨_, rfl⟩
        | ok u =>
          simp only at hm ⊢
          apply ih
          rw [hm]
          have hmem : (evtype.RECONNECT ∈ ev :: rest) ↔ (evtype.RECONNECT ∈ rest) := by
            simp [Ne.symm hev]
          simp only [hmem, List.length_cons] at hfuel
          omega

/-- C5. For every adapter state, `process_events` (given one unit of fuel per queued event and
one more) ends, and when it returns it returns the number of events that were in the queue
when it was called, whatever number it handled; otherwise it throws. Directly after a
successful construction the queue holds exactly one `NOP`, and the first `process_events`
returns 1. -/
theorem C5_process_events_returns_entry_count (srv : Server) :
    (∀ (s : pulseaudio) (fuel : Nat), s.m_events.length + 1 ≤ fuel →
      (∃ s1, process_events srv fuel s = some (.ok (s.m_events.length : Int), s1)) ∨
      (∃ e s1, process_events srv fuel s = some (.error e, s1))) ∧
    (∀ (sink_name : String) (max_volume : Bool) (cv : pa_cvolume) (fuel : Nat),
      (construct srv sink_name max_volume cv).1 = .ok () → 1 ≤ fuel →
      (construct srv sink_name max_volume cv).2.m_events = [evtype.NOP] ∧
      ∃ s1, process_events srv fuel (construct srv sink_name max_volume cv).2
        = some (.ok 1, s1)) := by
  constructor
  · intro s fuel hfuel
    obtain ⟨out, hout⟩ := process_loop_total srv fuel s (by split <;> omega)
    unfold process_events
    rw [hout]
    obtain ⟨r, s1⟩ := out
    cases r with
    | error e => exact Or.inr ⟨e, s1, rfl⟩
    | ok u => exact Or.inl ⟨s1, rfl⟩
  · intro sink_name max_volume cv fuel hok hfuel
    have hq : (construct srv sink_name max_volume cv).2.m_events = [evtype.NOP] :=
      ((connect_frame srv _).2.2.2.2.2 () hok).1
    refine ⟨hq, ?_⟩
    cases fuel with
    | zero => omega
    | succ f =>
      refine ⟨(update_volume srv
        { (construct srv sink_name max_volume cv).2 with m_events := [] }).2, ?_⟩
      have hu := update_volume_m_events srv
        { (construct srv sink_name max_volume cv).2 with m_events := [] }
      simp only [process_events, process_loop, hq, process_event, dispatch, List.length_singleton,
        Nat.cast_one]
      cases f with
      | zero => simp [process_loop, hu]
      | succ g => simp [process_loop, hu]

/-- C5 on the object `demo_failed_busy`, whose queue holds a `RECONNECT` and two more events:
the reconnect replaces the queue, two iterations run, and the call returns 3. -/
theorem C5_process_events_returns_entry_count_witness :
    ∃ s1, process_events demo_server 4 demo_failed_busy = some (.ok 3, s1) :=
  ((C5_process_events_returns_entry_count demo_server).1 demo_failed_busy 4
    (by decide)).resolve_right (by
      rintro ⟨e, s1, h⟩
      have h2 : (process_events demo_server 4 demo_failed_busy).map (fun r => r.1)
          = some (.ok 3) := by decide
      rw [h] at h2
      simp at h2)

/-! ## The dispatch table -/

/-- The request log after a resolution round-trip. -/
theorem get_sink_info_by_name_trace (srv : Server) (name : String) (s : pulseaudio) :
    (get_sink_info_by_name srv name s).2.trace
      = s.trace ++ [request.get_sink_info_by_name name] := by
  obtain ⟨i, n, h⟩ := get_sink_info_by_name_frame srv name s
  rw [h]

/-- The request log and the sink index after a volume refresh. -/
theorem update_volume_trace (srv : Server) (s : pulseaudio) :
    (update_volume srv s).2.trace = s.trace ++ [request.get_sink_info_by_index s.m_index] := by
  obtain ⟨c, m, h⟩ := update_volume_frame srv s
  rw [h]

/-- C6. The sink-resolution request the switch of `process_events` issues for an event:
`NEW` looks up the configured sink name when one is configured and the default sink
otherwise; `SERVER` looks up the default sink when no sink name is configured and nothing
otherwise; `REMOVE` always looks up the default sink; `CHANGE` and `NOP` look up nothing. The
rest of the iteration adds the volume-refresh request, when the switch returned, and nothing
else. -/
theorem C6_dispatch_table (srv : Server) (s : pulseaudio) :
    (dispatch srv evtype.NEW s).2.trace
      = s.trace ++ [request.get_sink_info_by_name
          (if s.spec_s_name ≠ "" then s.spec_s_name else DEFAULT_SINK)] ∧
    (dispatch srv evtype.SERVER s).2.trace
      = s.trace ++ (if s.spec_s_name ≠ "" then []
          else [request.get_sink_info_by_name DEFAULT_SINK]) ∧
    (dispatch srv evtype.REMOVE s).2.trace
      = s.trace ++ [request.get_sink_info_by_name DEFAULT_SINK] ∧
    (dispatch srv evtype.CHANGE s).2.trace = s.trace ∧
    (dispatch srv evtype.NOP s).2.trace = s.trace ∧
    (∀ ev, (process_event srv ev s).2.trace
      = (dispatch srv ev s).2.trace ++
          (match (dispatch srv ev s).1 with
           | .ok _ => [request.get_sink_info_by_index (dispatch srv ev s).2.m_index]
           | .error _ => [])) := by
  refine ⟨?_, ?_, ?_, ?_, ?_, ?_⟩
  · by_cases h : s.spec_s_name = ""
    · simp [dispatch, case_NEW, case_SERVER, case_REMOVE, h, get_sink_info_by_name_trace]
    · simp [dispatch, case_NEW, h, get_sink_info_by_name_trace]
  · by_cases h : s.spec_s_name = ""
    · simp [dispatch, case_SERVER, case_REMOVE, h, get_sink_info_by_name_trace]
    · simp [dispatch, case_SERVER, h]
  · exact get_sink_info_by_name_trace _ _ _
  · simp [dispatch]
  · simp [dispatch]
  · intro ev
    unfold process_event
    split
    · rename_i e s1 h
      simp [h]
    · rename_i u s1 h
      simp [h, update_volume_trace]

/-! ## Reconnecting -/

/-- When `connect()` throws, the iteration that handles `RECONNECT` ends with that error and
makes no volume refresh. -/
theorem process_event_reconnect_error (srv : Server) (s : pulseaudio) (e : String)
    (he : (connect srv s).1 = .error e) :
    process_event srv evtype.RECONNECT s = (.error e, (connect srv s).2) := by
  unfold process_event
  simp only [dispatch]
  generalize connect srv s = r at he
  obtain ⟨r1, s1⟩ := r
  simp only at he
  subst he
  rfl

/-- The calls `connect` makes on the mainloop begin with the creation of the new mainloop and
leave its lock released. -/
theorem connect_mainloop_calls_released (srv : Server) (s : pulseaudio) :
    (∃ rest, connect_mainloop_calls srv s = mainloop_call.pa_threaded_mainloop_new :: rest) ∧
    held (connect_mainloop_calls srv s) = 0 := by
  unfold connect_mainloop_calls
  split
  · exact ⟨⟨[], rfl⟩, rfl⟩
  · exact ⟨⟨_, rfl⟩, rfl⟩

/-- The outcome of the `RECONNECT` case is that of `connect()`. -/
theorem case_RECONNECT_fst (srv : Server) (guard : mainloop_locker) (s : pulseaudio) :
    (case_RECONNECT srv guard s).1 = connect srv s := by
  unfold case_RECONNECT
  split
  · rename_i e s1 h
    rw [h]
  · rename_i u s1 h
    rw [h]

/-- The calls the `RECONNECT` case makes on the mainloop begin with those of `guard.unlock()`
and go on with those of `connect()`. -/
theorem case_RECONNECT_calls (srv : Server) (guard : mainloop_locker) (s : pulseaudio) :
    ∃ rest, (case_RECONNECT srv guard s).2.2
      = guard.unlock.2 ++ connect_mainloop_calls srv s ++ rest := by
  unfold case_RECONNECT
  split
  · exact ⟨[], by simp⟩
  · rename_i u s1 h
    exact ⟨(mainloop_locker.create s1.m_mainloop).2 ++
      (mainloop_locker.create s1.m_mainloop).1.destroy, by simp only [List.append_assoc]⟩

/-- C7, as amended. When `process_events` handles a `RECONNECT` event, it first releases the
mainloop lock its guard holds and then runs `connect()`, which creates the new mainloop and
takes and releases its lock itself; the switch runs nothing but `connect()`. When `connect()`
throws, the error leaves the iteration and no volume refresh is made; when `connect()`
completes, the iteration goes on to the volume-refresh round-trip, as for every other
event. -/
theorem C7_reconnect_iteration (srv : Server) (guard : mainloop_locker) (s : pulseaudio)
    (hg : guard.m_loop = true) :
    (∃ rest, (case_RECONNECT srv guard s).2.2
      = mainloop_call.pa_threaded_mainloop_unlock ::
          (connect_mainloop_calls srv s ++ rest)) ∧
    (∃ rest, connect_mainloop_calls srv s = mainloop_call.pa_threaded_mainloop_new :: rest) ∧
    held (connect_mainloop_calls srv s) = 0 ∧
    (case_RECONNECT srv guard s).1 = dispatch srv evtype.RECONNECT s ∧
    (∀ e, (connect srv s).1 = .error e →
      process_event srv evtype.RECONNECT s = (.error e, (connect srv s).2) ∧
      (case_RECONNECT srv guard s).2.1.m_loop = false) ∧
    (∀ u, (connect srv s).1 = .ok u →
      process_event srv evtype.RECONNECT s
        = (.ok (), (update_volume srv (connect srv s).2).2) ∧
      (process_event srv evtype.RECONNECT s).2.trace
        = (connect srv s).2.trace ++
            [request.get_sink_info_by_index (connect srv s).2.m_index]) := by
  have hunlock : guard.unlock.2 = [mainloop_call.pa_threaded_mainloop_unlock] := by
    simp [mainloop_locker.unlock, hg]
  obtain ⟨hnew, hheld⟩ := connect_mainloop_calls_released srv s
  refine ⟨?_, hnew, hheld, case_RECONNECT_fst srv guard s, ?_, ?_⟩
  · obtain ⟨rest, hrest⟩ := case_RECONNECT_calls srv guard s
    exact ⟨rest, by rw [hrest, hunlock]; rfl⟩
  · intro e he
    refine ⟨process_event_reconnect_error srv s e he, ?_⟩
    unfold case_RECONNECT
    generalize connect srv s = r at he
    obtain ⟨r1, s1⟩ := r
    simp only at he
    subst he
    simp [mainloop_locker.unlock, hg]
  · intro u hu
    have h1 : process_event srv evtype.RECONNECT s
        = (.ok (), (update_volume srv (connect srv s).2).2) := by
      unfold process_event
      simp only [dispatch]
      generalize connect srv s = r at hu
      obtain ⟨r1, s1⟩ := r
      simp only at hu
      subst hu
      rfl
    refine ⟨h1, ?_⟩
    rw [h1]
    exact update_volume_trace _ _

/-- C7 on `demo_named_failed` with the guard of `process_events` holding the lock. -/
theorem C7_reconnect_iteration_witness :
    (case_RECONNECT demo_server ⟨true⟩ demo_named_failed).2.2
      = [mainloop_call.pa_threaded_mainloop_unlock, mainloop_call.pa_threaded_mainloop_new,
         mainloop_call.pa_threaded_mainloop_lock, mainloop_call.pa_threaded_mainloop_unlock,
         mainloop_call.pa_threaded_mainloop_lock, mainloop_call.pa_threaded_mainloop_unlock] ∧
    (process_event demo_server evtype.RECONNECT demo_named_failed).2.trace
      = (connect demo_server demo_named_failed).2.trace ++
          [request.get_sink_info_by_index (connect demo_server demo_named_failed).2.m_index] :=
  ⟨by decide,
   ((C7_reconnect_iteration demo_server ⟨true⟩ demo_named_failed rfl).2.2.2.2.2 ()
      (by decide)).2⟩

/-- Line 156 of `process_events`: when `connect()` has completed, the guard is assigned from a
temporary locker, whose destructor releases the lock it has just taken; the guard keeps the
pointer while the lock of the new mainloop is not held. -/
theorem case_RECONNECT_guard_after (srv : Server) (guard : mainloop_locker) (s : pulseaudio)
    (hg : guard.m_loop = true) (u : Unit) (hok : (connect srv s).1 = .ok u) :
    (case_RECONNECT srv guard s).2.1.m_loop = true ∧
    held (case_RECONNECT srv guard s).2.2 = 0 := by
  have hml := ((connect_frame srv s).2.2.2.2.2 u hok).2.1
  have hnew : srv.pa_threaded_mainloop_new s.clock ≠ false := by
    intro h
    simp [connect, h] at hok
  unfold case_RECONNECT
  generalize hc : connect srv s = r at hok hml
  obtain ⟨r1, s1⟩ := r
  simp only at hok hml
  subst hok
  simp only [mainloop_locker.create, mainloop_locker.destroy, mainloop_locker.unlock, hg, hml,
    connect_mainloop_calls, hnew, if_true, if_false]
  exact ⟨trivial, rfl⟩

/-- C7 refuted as stated: on `demo_named_failed`, whose configured sink is `spk`, the
iteration that handles `RECONNECT` completes and issues a sink-resolution request, the
subscription and a volume-refresh request. -/
theorem C7_reconnect_iteration_counterexample :
    (process_event demo_server evtype.RECONNECT { demo_named_failed with m_events := [] }).1
      = .ok () ∧
    (process_event demo_server evtype.RECONNECT
        { demo_named_failed with m_events := [] }).2.trace
      = demo_named_failed.trace ++
          [request.get_sink_info_by_name "spk", request.subscribe,
           request.get_sink_info_by_index 3] := by
  decide

/-- C8, as amended. When `process_events` handles a `RECONNECT` event, either `connect()`
throws and the error leaves `process_events`, or `connect()` completes with both handles set
and the queue holding exactly the seeding `NOP`; in both cases the disconnected flag keeps the
value it had. -/
theorem C8_reconnect_outcome (srv : Server) (s : pulseaudio) (rest : List evtype) (fuel : Nat)
    (hs : s.m_events = evtype.RECONNECT :: rest) :
    ((∃ e, (connect srv { s with m_events := rest }).1 = .error e ∧
        process_events srv (fuel + 1) s
          = some (.error e, (connect srv { s with m_events := rest }).2)) ∨
      ((connect srv { s with m_events := rest }).1 = .ok () ∧
        (connect srv { s with m_events := rest }).2.m_events = [evtype.NOP] ∧
        (connect srv { s with m_events := rest }).2.m_mainloop = true ∧
        (connect srv { s with m_events := rest }).2.m_context = true)) ∧
    (connect srv { s with m_events := rest }).2.m_disconnected = s.m_disconnected := by
  obtain ⟨hd, -, -, -, -, hok⟩ := connect_frame srv { s with m_events := rest }
  refine ⟨?_, hd⟩
  cases hc : (connect srv { s with m_events := rest }).1 with
  | error e =>
    left
    refine ⟨e, rfl, ?_⟩
    have hpe := process_event_reconnect_error srv { s with m_events := rest } e hc
    simp only [process_events, process_loop, hs, hpe]
  | ok u =>
    right
    exact ⟨rfl, hok u hc⟩

/-- C8 on the object `demo_failed`, whose queue holds one `RECONNECT`. -/
theorem C8_reconnect_outcome_witness :
    ((∃ e, (connect demo_server { demo_failed with m_events := [] }).1 = .error e ∧
        process_events demo_server 2 demo_failed
          = some (.error e, (connect demo_server { demo_failed with m_events := [] }).2)) ∨
      ((connect demo_server { demo_failed with m_events := [] }).1 = .ok () ∧
        (connect demo_server { demo_failed with m_events := [] }).2.m_events = [evtype.NOP] ∧
        (connect demo_server { demo_failed with m_events := [] }).2.m_mainloop = true ∧
        (connect demo_server { demo_failed with m_events := [] }).2.m_context = true)) ∧
    (connect demo_server { demo_failed with m_events := [] }).2.m_disconnected
      = demo_failed.m_disconnected :=
  C8_reconnect_outcome demo_server demo_failed [] 1 (by decide)

/-- C8 refuted as stated: on `demo_failed`, whose queue holds one `RECONNECT`,
`process_events` reconnects and returns normally, and the disconnected flag is still true. -/
theorem C8_reconnect_outcome_counterexample :
    demo_failed.m_events = [evtype.RECONNECT] ∧
    (process_events demo_server 2 demo_failed).map (fun r => (r.1, r.2.m_disconnected))
      = some (.ok 1, true) := by
  decide
/-! ## The cached snapshot -/

/-- The value `get_volume` reports for the raw volume 40000. -/
theorem raw_to_percentage_40000 : raw_to_percentage 40000 = 61 := by
  unfold raw_to_percentage
  simp only [PA_VOLUME_NORM]
  norm_num [Int.floor_eq_iff]

/-- The value `get_volume` reports for the raw volume `PA_VOLUME_NORM`. -/
theorem raw_to_percentage_65536 : raw_to_percentage 65536 = 100 := by
  unfold raw_to_percentage
  simp only [PA_VOLUME_NORM]
  norm_num [Int.floor_eq_iff]

/-- The request `set_mute` makes changes neither the cached volume nor the cached mute flag. -/
theorem set_mute_frame (srv : Server) (mode : Bool) (s : pulseaudio) :
    (set_mute srv mode s).2.cv = s.cv ∧ (set_mute srv mode s).2.muted = s.muted := by
  unfold set_mute
  split
  · simp [submit]
  · simp only [wait_loop_simple_callback]
    split <;> simp [submit]

/-- C9, as amended. `set_mute` (and so `toggle_mute`) changes neither part of the cached
snapshot, and `set_volume` and `inc_volume` do not change the cached mute flag; but
`set_volume` and `inc_volume` overwrite the cached channel values with the volume they submit,
whatever the server answers. A volume refresh stores what the server reports, and nothing when
it reports no sink. -/
theorem C9_snapshot_writes (srv : Server) (s : pulseaudio) :
    (∀ mode, (set_mute srv mode s).2.cv = s.cv ∧ (set_mute srv mode s).2.muted = s.muted) ∧
    ((toggle_mute srv s).2.cv = s.cv ∧ (toggle_mute srv s).2.muted = s.muted) ∧
    (∀ p, (set_volume srv p s).2.muted = s.muted ∧
      (set_volume srv p s).2.cv
        = pa_cvolume_scale s.cv (percentage_to_value p PA_VOLUME_MUTED PA_VOLUME_NORM)) ∧
    (∀ d, (inc_volume srv d s).2.muted = s.muted ∧
      (inc_volume srv d s).2.cv = inc_volume_cv d s) ∧
    (∀ info eol, (get_sink_volume_callback s ⟨some info, eol⟩).cv = info.volume ∧
      (get_sink_volume_callback s ⟨some info, eol⟩).muted = info.mute) ∧
    (∀ eol, get_sink_volume_callback s ⟨none, eol⟩ = s) := by
  refine ⟨fun mode => set_mute_frame srv mode s, set_mute_frame srv _ s, ?_, ?_,
    fun _ _ => ⟨rfl, rfl⟩, fun _ => rfl⟩
  · intro p
    unfold set_volume
    obtain ⟨h1, h2, -⟩ := send_volume_frame srv
      { s with cv := pa_cvolume_scale s.cv (percentage_to_value p PA_VOLUME_MUTED PA_VOLUME_NORM) }
    exact ⟨h2, h1⟩
  · intro d
    unfold inc_volume
    obtain ⟨h1, h2, -⟩ := send_volume_frame srv { s with cv := inc_volume_cv d s }
    exact ⟨h2, h1⟩

/-- C9 refuted as stated: on `demo_idle`, whose cache holds the server-reported volume
`[40000, 20000]` (61 percent), `set_volume(150)` against a server that reports failure throws
and leaves `[65536, 32768]` in the cache, so that `get_volume` reports 100. -/
theorem C9_snapshot_writes_counterexample :
    demo_idle.cv = ⟨[40000, 20000]⟩ ∧ get_volume demo_idle = 61 ∧
    (set_volume demo_rejects 150 demo_idle).1 = .error "Failed to set sink volume." ∧
    (set_volume demo_rejects 150 demo_idle).2.cv = ⟨[65536, 32768]⟩ ∧
    get_volume (set_volume demo_rejects 150 demo_idle).2 = 100 := by
  have h : set_volume demo_rejects 150 demo_idle
      = send_volume demo_rejects
          { demo_idle with cv := pa_cvolume_scale demo_idle.cv PA_VOLUME_NORM } := by
    unfold set_volume
    rw [percentage_to_value_above 150 (by norm_num)]
  have hcv0 : demo_idle.cv = ⟨[40000, 20000]⟩ := by decide
  have hcv1 : (set_volume demo_rejects 150 demo_idle).2.cv = ⟨[65536, 32768]⟩ := by
    rw [h]
    decide
  refine ⟨hcv0, ?_, ?_, hcv1, ?_⟩
  · unfold get_volume
    rw [hcv0, show pa_cvolume_max ⟨[40000, 20000]⟩ = 40000 by decide]
    exact raw_to_percentage_40000
  · rw [h]
    decide
  · unfold get_volume
    rw [hcv1, show pa_cvolume_max ⟨[65536, 32768]⟩ = 65536 by decide]
    exact raw_to_percentage_65536

/-! ## Resolution without a match -/

/-- Callbacks that carry the end-of-list marker or a null `info` change nothing. -/
theorem wait_loop_sink_info_callback_no_match (calls : List info_call) (s : pulseaudio)
    (h : ∀ c ∈ calls, c.eol ≠ 0 ∨ c.info = none) :
    wait_loop sink_info_callback calls s = s := by
  induction calls generalizing s with
  | nil => rfl
  | cons c cs ih =>
    simp only [wait_loop, List.foldl_cons] at ih ⊢
    have hc : sink_info_callback s c = s := by
      unfold sink_info_callback
      rcases h c (List.mem_cons_self _ _) with h0 | h0
      · split
        · simp [h0]
        · rfl
      · simp [h0]
    rw [hc]
    exact ih s (fun d hd => h d (List.mem_cons_of_mem _ hd))

/-- C10. A sink-resolution round-trip that completes without reporting a matching sink (every
callback carries the end-of-list marker or a null `info`) returns normally and leaves the
resolved sink index and name as they were; and a resolution round-trip throws only when the
operation could not be created. -/
theorem C10_resolution_without_match (srv : Server) (name : String) (s : pulseaudio) :
    (∀ calls, srv.pa_context_get_sink_info_by_name s.clock name = some calls →
      (∀ c ∈ calls, c.eol ≠ 0 ∨ c.info = none) →
      (get_sink_info_by_name srv name s).1 = .ok () ∧
      (get_sink_info_by_name srv name s).2.m_index = s.m_index ∧
      (get_sink_info_by_name srv name s).2.s_name = s.s_name) ∧
    (∀ e, (get_sink_info_by_name srv name s).1 = .error e →
      srv.pa_context_get_sink_info_by_name s.clock name = none) ∧
    (srv.pa_context_get_sink_info_by_name s.clock name ≠ none →
      (get_sink_info_by_name srv name s).1 = .ok ()) := by
  refine ⟨?_, ?_, get_sink_info_by_name_ok srv name s⟩
  · intro calls hcalls hno
    unfold get_sink_info_by_name
    rw [hcalls]
    dsimp only
    rw [wait_loop_sink_info_callback_no_match calls _ hno]
    exact ⟨rfl, rfl, rfl⟩
  · intro e he
    exact (get_sink_info_by_name_error_iff srv name s).mp ⟨e, he⟩
/-! ## The frame index of an animation -/

/-- On a consistent animation with a frame, `increment` moves the index to the next frame,
cyclically, and changes nothing else. -/
theorem animation_increment_eq {α : Type} (a : animation α) (h : a.consistent)
    (hn : 1 ≤ a.m_frames.length) :
    a.increment = some { a with m_frame := (a.m_frame + 1) % a.m_frames.length } := by
  obtain ⟨hc, hs, hi⟩ := h
  have hi := hi hn
  unfold animation.increment
  have h0 : a.m_framecount ≠ 0 := by omega
  rw [if_neg h0, hc, Nat.mod_eq_of_lt (by omega : a.m_frame + 1 < SIZE_RANGE)]

/-- After `k` increments the index has moved `k` frames on, cyclically. -/
theorem animation_increments_eq {α : Type} (k : Nat) (a : animation α) (h : a.consistent)
    (hn : 1 ≤ a.m_frames.length) :
    a.increments k = some { a with m_frame := (a.m_frame + k) % a.m_frames.length } := by
  induction k generalizing a with
  | zero =>
    have hi := h.2.2 hn
    simp only [animation.increments, Nat.add_zero, Nat.mod_eq_of_lt hi]
  | succ k ih =>
    have hpos : 0 < a.m_frames.length := hn
    have hc : ({ a with m_frame := (a.m_frame + 1) % a.m_frames.length } : animation α).consistent :=
      ⟨h.1, h.2.1, fun _ => Nat.mod_lt _ hpos⟩
    simp only [animation.increments, animation_increment_eq a h hn, Option.some_bind]
    rw [ih _ hc hn]
    simp only [Nat.mod_add_mod, Nat.add_assoc, Nat.add_comm 1 k]

/-- The constructor from frames and `add` leave a consistent animation whose index is that of
the last frame. -/
theorem animation_add_consistent {α : Type} (a : animation α) (frame : α)
    (hs : a.m_frames.length + 1 < SIZE_RANGE) :
    (a.add frame).consistent ∧ (a.add frame).m_frame = (a.add frame).m_frames.length - 1 := by
  have hlen : (a.m_frames ++ [frame]).length = a.m_frames.length + 1 := by simp
  simp only [animation.consistent, animation.add, hlen, Nat.mod_eq_of_lt hs]
  have hm : (a.m_frames.length + 1 + SIZE_RANGE - 1) % SIZE_RANGE = a.m_frames.length := by
    rw [show a.m_frames.length + 1 + SIZE_RANGE - 1 = a.m_frames.length + SIZE_RANGE by omega,
      Nat.add_mod_right]
    exact Nat.mod_eq_of_lt (by omega)
  rw [hm]
  refine ⟨⟨?_, hs, fun _ => by omega⟩, ?_⟩
  · exact True.intro
  · omega

/-- The constructor from at least one frame leaves a consistent animation whose index is that
of the last frame. -/
theorem new_animation_of_frames_consistent {α : Type} (frames : List α) (framerate_ms : Nat)
    (hn : 1 ≤ frames.length) (hs : frames.length < SIZE_RANGE) :
    (new_animation_of_frames frames framerate_ms).consistent ∧
    (new_animation_of_frames frames framerate_ms).m_frame = frames.length - 1 := by
  simp only [animation.consistent, new_animation_of_frames, Nat.mod_eq_of_lt hs]
  have hm : (frames.length + SIZE_RANGE - 1) % SIZE_RANGE = frames.length - 1 := by
    rw [show frames.length + SIZE_RANGE - 1 = (frames.length - 1) + SIZE_RANGE by omega,
      Nat.add_mod_right]
    exact Nat.mod_eq_of_lt (by omega)
  rw [hm]
  refine ⟨⟨?_, hs, fun _ => by omega⟩, ?_⟩
  · exact True.intro
  · omega

/-- C12. For every animation with `n ≥ 1` frames (in the state the constructors, `add` and
`increment` leave it in), `increment` sets the frame index to `(index + 1) mod n`, so the
index stays below `n` and `get()` indexes an existing frame, and `n` increments return to the
frame they started from. An animation constructed from `n ≥ 1` frames, or built by `add`,
starts at index `n - 1`, and its first increment selects frame 0. -/
theorem C12_animation_frame_index {α : Type} :
    (∀ a : animation α, a.consistent → 1 ≤ a.m_frames.length →
      (∃ b, a.increment = some b ∧ b.m_frame = (a.m_frame + 1) % a.m_frames.length ∧
        b.m_frames = a.m_frames ∧ b.m_frame < b.m_frames.length ∧ b.consistent ∧
        b.get.isSome = true) ∧
      a.get.isSome = true ∧
      a.increments a.m_frames.length = some a) ∧
    (∀ (frames : List α) (framerate_ms : Nat), 1 ≤ frames.length → frames.length < SIZE_RANGE →
      (new_animation_of_frames frames framerate_ms).consistent ∧
      (new_animation_of_frames frames framerate_ms).m_frame = frames.length - 1 ∧
      ∃ b, (new_animation_of_frames frames framerate_ms).increment = some b ∧ b.m_frame = 0) ∧
    (∀ (a : animation α) (frame : α), a.m_frames.length + 1 < SIZE_RANGE →
      (a.add frame).consistent ∧
      (a.add frame).m_frame = (a.add frame).m_frames.length - 1 ∧
      ∃ b, (a.add frame).increment = some b ∧ b.m_frame = 0) := by
  have last_then_first : ∀ c : animation α, c.consistent → 1 ≤ c.m_frames.length →
      c.m_frame = c.m_frames.length - 1 → ∃ b, c.increment = some b ∧ b.m_frame = 0 := by
    intro c hc hn hlast
    refine ⟨_, animation_increment_eq c hc hn, ?_⟩
    simp only [hlast]
    rw [show c.m_frames.length - 1 + 1 = c.m_frames.length by omega, Nat.mod_self]
  have get_some : ∀ c : animation α, c.m_frame < c.m_frames.length → c.get.isSome = true := by
    intro c hc
    simp [animation.get, List.get?_eq_getElem?, List.getElem?_eq_getElem hc]
  refine ⟨?_, ?_, ?_⟩
  · intro a ha hn
    have hpos : 0 < a.m_frames.length := hn
    have hlt : (a.m_frame + 1) % a.m_frames.length < a.m_frames.length := Nat.mod_lt _ hpos
    refine ⟨⟨_, animation_increment_eq a ha hn, rfl, rfl, hlt, ⟨ha.1, ha.2.1, fun _ => hlt⟩,
      get_some _ hlt⟩, get_some a (ha.2.2 hn), ?_⟩
    rw [animation_increments_eq _ a ha hn, Nat.add_mod_right, Nat.mod_eq_of_lt (ha.2.2 hn)]
  · intro frames framerate_ms hn hs
    obtain ⟨hc, hlast⟩ := new_animation_of_frames_consistent frames framerate_ms hn hs
    exact ⟨hc, hlast, last_then_first _ hc hn hlast⟩
  · intro a frame hs
    obtain ⟨hc, hlast⟩ := animation_add_consistent a frame hs
    exact ⟨hc, hlast, last_then_first _ hc (by simp [animation.add]) hlast⟩

/-- C12 on `demo_animation`, built from three frames: it starts at index 2, and three
increments bring it back. -/
theorem C12_animation_frame_index_witness :
    demo_animation.m_frame = 2 ∧ demo_animation.increments 3 = some demo_animation :=
  ⟨by decide,
   ((@C12_animation_frame_index String).1 demo_animation
      (new_animation_of_frames_consistent _ _ (by decide) (by decide)).1 (by decide)).2.2⟩

/-! ## The sink tracked after `connect` -/

/-- A resolution round-trip whose operation is created runs its callbacks on the object. -/
theorem get_sink_info_by_name_eq (srv : Server) (name : String) (s : pulseaudio)
    (calls : List info_call)
    (h : srv.pa_context_get_sink_info_by_name s.clock name = some calls) :
    get_sink_info_by_name srv name s
      = (.ok (), wait_loop sink_info_callback calls
          (submit (request.get_sink_info_by_name name) s)) := by
  unfold get_sink_info_by_name
  rw [h]

/-- The sink look-ups of `connect` on an object that has no sink name yet: when the configured
name, if any, is reported as no sink and the default sink is `d`, the object tracks `d`. -/
theorem connect_sinks_tracks_default (srv : Server) (s : pulseaudio) (d : pa_sink_info)
    (hname : s.s_name = "")
    (hspec : s.spec_s_name ≠ "" → ∃ calls,
      srv.pa_context_get_sink_info_by_name s.clock s.spec_s_name = some calls ∧
      ∀ c ∈ calls, c.eol ≠ 0 ∨ c.info = none)
    (hdef : ∀ t, srv.pa_context_get_sink_info_by_name t DEFAULT_SINK
      = some [⟨some d, 0⟩, ⟨none, 1⟩]) :
    (connect_sinks srv s).2.m_index = d.index ∧ (connect_sinks srv s).2.s_name = d.name := by
  have tail : ∀ x : pulseaudio, x.s_name = "" →
      (match (if x.s_name = "" then get_sink_info_by_name srv DEFAULT_SINK x
              else (.ok (), x)) with
        | (.error e, s2) => ((.error e, s2) : outcome Unit)
        | (.ok _, s2) => connect_subscribe srv s2).2.m_index = d.index ∧
      (match (if x.s_name = "" then get_sink_info_by_name srv DEFAULT_SINK x
              else (.ok (), x)) with
        | (.error e, s2) => ((.error e, s2) : outcome Unit)
        | (.ok _, s2) => connect_subscribe srv s2).2.s_name = d.name := by
    intro x hx
    rw [if_pos hx, get_sink_info_by_name_eq srv DEFAULT_SINK x _ (hdef x.clock)]
    dsimp only
    obtain ⟨succ, q, h3, -⟩ := connect_subscribe_frame srv
      (wait_loop sink_info_callback [⟨some d, 0⟩, ⟨none, 1⟩]
        (submit (request.get_sink_info_by_name DEFAULT_SINK) x))
    rw [h3]
    simp [wait_loop, sink_info_callback, submit]
  unfold connect_sinks
  by_cases hsp : s.spec_s_name = ""
  · have hne : ¬ (s.spec_s_name ≠ "") := fun h => h hsp
    rw [if_neg hne]
    dsimp only
    exact tail s hname
  · obtain ⟨calls, hcalls, hno⟩ := hspec hsp
    rw [if_pos hsp, get_sink_info_by_name_eq srv _ s calls hcalls,
      wait_loop_sink_info_callback_no_match calls _ hno]
    dsimp only
    exact tail _ hname

/-- The initial path of `connect`: on an object that has no sink name yet, when `connect`
completes, the configured name (if any) was reported as no sink and the default sink is `d`,
the object tracks `d`. -/
theorem connect_tracks_default_sink (srv : Server) (s : pulseaudio) (d : pa_sink_info)
    (hname : s.s_name = "")
    (hspec : s.spec_s_name ≠ "" → ∃ calls,
      srv.pa_context_get_sink_info_by_name (s.clock + 1) s.spec_s_name = some calls ∧
      ∀ c ∈ calls, c.eol ≠ 0 ∨ c.info = none)
    (hdef : ∀ t, srv.pa_context_get_sink_info_by_name t DEFAULT_SINK
      = some [⟨some d, 0⟩, ⟨none, 1⟩])
    (hok : (connect srv s).1 = .ok ()) :
    (connect srv s).2.m_index = d.index ∧ (connect srv s).2.s_name = d.name := by
  unfold connect at hok ⊢
  simp only at hok ⊢
  split at hok
  · simp at hok
  · split at hok
    · simp at hok
    · split at hok
      · simp at hok
      · split at hok
        · simp at hok
        · split at hok
          · simp at hok
          · rename_i h1 h2 h3 h4 h5
            rw [if_neg h1, if_neg h2, if_neg h3, if_neg h4, if_neg h5]
            apply connect_sinks_tracks_default srv _ d
            · cases srv.pa_context_get_state s.clock <;> exact hname
            · cases srv.pa_context_get_state s.clock <;> exact hspec
            · exact hdef

/-- The reconnect path of `connect`: on an object that already has a sink name, when the
configured name (if any) is reported as no sink, the sink index and name are left as they
were, whatever the default sink of the server is. -/
theorem connect_keeps_resolved_sink (srv : Server) (s : pulseaudio)
    (hname : s.s_name ≠ "")
    (hspec : s.spec_s_name ≠ "" → ∃ calls,
      srv.pa_context_get_sink_info_by_name (s.clock + 1) s.spec_s_name = some calls ∧
      ∀ c ∈ calls, c.eol ≠ 0 ∨ c.info = none) :
    (connect srv s).2.m_index = s.m_index ∧ (connect srv s).2.s_name = s.s_name := by
  have sinks : ∀ x : pulseaudio, x.s_name ≠ "" →
      (x.spec_s_name ≠ "" → ∃ calls,
        srv.pa_context_get_sink_info_by_name x.clock x.spec_s_name = some calls ∧
        ∀ c ∈ calls, c.eol ≠ 0 ∨ c.info = none) →
      (connect_sinks srv x).2.m_index = x.m_index ∧
      (connect_sinks srv x).2.s_name = x.s_name := by
    intro x hx hsx
    have tail : ∀ y : pulseaudio, y.s_name ≠ "" →
        (match (if y.s_name = "" then get_sink_info_by_name srv DEFAULT_SINK y
                else (.ok (), y)) with
          | (.error e, s2) => ((.error e, s2) : outcome Unit)
          | (.ok _, s2) => connect_subscribe srv s2).2.m_index = y.m_index ∧
        (match (if y.s_name = "" then get_sink_info_by_name srv DEFAULT_SINK y
                else (.ok (), y)) with
          | (.error e, s2) => ((.error e, s2) : outcome Unit)
          | (.ok _, s2) => connect_subscribe srv s2).2.s_name = y.s_name := by
      intro y hy
      rw [if_neg hy]
      dsimp only
      obtain ⟨succ, q, h3, -⟩ := connect_subscribe_frame srv y
      rw [h3]
      exact ⟨rfl, rfl⟩
    unfold connect_sinks
    by_cases hsp : x.spec_s_name = ""
    · have hne : ¬ (x.spec_s_name ≠ "") := fun h => h hsp
      rw [if_neg hne]
      dsimp only
      exact tail x hx
    · obtain ⟨calls, hcalls, hno⟩ := hsx hsp
      rw [if_pos hsp, get_sink_info_by_name_eq srv _ x calls hcalls,
        wait_loop_sink_info_callback_no_match calls _ hno]
      dsimp only
      exact tail _ hx
  unfold connect
  simp only
  split
  · exact ⟨rfl, rfl⟩
  · split
    · exact ⟨rfl, rfl⟩
    · split
      · exact ⟨rfl, rfl⟩
      · split
        · exact ⟨rfl, rfl⟩
        · split
          · constructor <;> (cases srv.pa_context_get_state s.clock <;> rfl)
          · have h := sinks (context_state_callback
                { s with m_events := [], clock := s.clock + 1,
                         m_mainloop := srv.pa_threaded_mainloop_new s.clock,
                         m_context := true, m_state_callback_signal := false }
                (srv.pa_context_get_state s.clock))
              (by cases srv.pa_context_get_state s.clock <;> exact hname)
              (by cases srv.pa_context_get_state s.clock <;> exact hspec)
            refine ⟨h.1.trans ?_, h.2.trans ?_⟩ <;>
              (cases srv.pa_context_get_state s.clock <;> rfl)

/-- C11 at its failing input. Against a server whose default sink is `spk`, the constructor
tracks `spk`, whether no sink name is configured or the configured name `usb` is unknown to
the server. When the context then fails and `connect()` runs as a reconnect against a server
whose only sink, and default sink, is `hdmi` (index 7), `connect()` completes without a
look-up of the default sink and the object still tracks `spk`, index 3. -/
theorem C11_reconnect_keeps_stale_sink :
    ((construct (demo_server_with_default demo_spk) "" false ⟨[]⟩).1 = .ok () ∧
      (construct (demo_server_with_default demo_spk) "" false ⟨[]⟩).2.m_index = 3 ∧
      (construct (demo_server_with_default demo_spk) "" false ⟨[]⟩).2.s_name = "spk") ∧
    ((construct (demo_server_with_default demo_spk) "usb" false ⟨[]⟩).1 = .ok () ∧
      (construct (demo_server_with_default demo_spk) "usb" false ⟨[]⟩).2.m_index = 3 ∧
      (construct (demo_server_with_default demo_spk) "usb" false ⟨[]⟩).2.s_name = "spk") ∧
    ((connect (demo_server_with_default demo_hdmi) demo_unnamed_lost).1 = .ok () ∧
      (connect (demo_server_with_default demo_hdmi) demo_unnamed_lost).2.m_index = 3 ∧
      (connect (demo_server_with_default demo_hdmi) demo_unnamed_lost).2.s_name = "spk" ∧
      (connect (demo_server_with_default demo_hdmi) demo_unnamed_lost).2.trace
        = demo_unnamed_lost.trace ++ [request.subscribe]) ∧
    ((connect (demo_server_with_default demo_hdmi) demo_usb_lost).1 = .ok () ∧
      (connect (demo_server_with_default demo_hdmi) demo_usb_lost).2.m_index = 3 ∧
      (connect (demo_server_with_default demo_hdmi) demo_usb_lost).2.s_name = "spk" ∧
      (connect (demo_server_with_default demo_hdmi) demo_usb_lost).2.trace
        = demo_usb_lost.trace ++ [request.get_sink_info_by_name "usb", request.subscribe]) := by
  decide

end polybar
